import Mathlib

/-!
Verification development for a sales-analytics dashboard.

The dashboard pulls sales orders, credit notes, products and salespersons
from a vendor HTTP API (signed requests, paginated responses, a small
on-disk cache), aggregates them into period-over-period comparison tables,
and renders the result.  This file gives a shallow embedding of the data
model and of the functions in `app.py`, plus theorems about them.

Monetary amounts are embedded as exact rationals.
-/

/-- Monetary amounts (pre-tax subtotals, line totals, unit costs). -/
abbrev Money := ℚ

/- ------------------------------------------------------------------
Generic association-list machinery.

Python dicts built by the aggregation functions are embedded as
association lists in insertion order.  `updGroup k init upd d` is the
embedding of the idiom
  `if k not in d: d[k] = init` followed by `d[k] = upd(d[k])`.
------------------------------------------------------------------- -/

/-- Look up the first binding of a key in an association list
(the embedding of a Python dict read). -/
def lookupG (key : String) : List (String × β) → Option β
  | [] => none
  | (k, v) :: rest => if k = key then some v else lookupG key rest

/-- Insert-or-update of one key in an association list: if the key is
absent, append `(key, upd init)` at the end (Python dicts preserve
insertion order); otherwise update the existing value in place. -/
def updGroup (key : String) (init : β) (upd : β → β) : List (String × β) → List (String × β)
  | [] => [(key, upd init)]
  | (k, v) :: rest =>
      if k = key then (k, upd v) :: rest else (k, v) :: updGroup key init upd rest

/-- Insertion step for a descending sort on a numeric field; equal keys keep
their original relative order, as pandas nlargest does. -/
def insertDescBy (f : α → Money) (x : α) : List α → List α
  | [] => [x]
  | y :: ys => if f y < f x then x :: y :: ys else y :: insertDescBy f x ys

/-- Stable descending sort on a numeric field (the embedding of the
descending sorts done through pandas). -/
def sortDescBy (f : α → Money) : List α → List α
  | [] => []
  | x :: xs => insertDescBy f x (sortDescBy f xs)

/-- The embedding of pandas `nlargest(n, field)`: the `n` largest rows by
the ranking field, in descending order. -/
def nlargestBy (f : α → Money) (n : ℕ) (l : List α) : List α :=
  (sortDescBy f l).take n

/- ------------------------------------------------------------------
Data model: the record shapes read out of the vendor API JSON.
A field read with `.get(key, default)` in the source is embedded as an
`Option` field with the default applied at the use site.
------------------------------------------------------------------- -/

/-- A salesperson reference on an order (`SalesPerson` object). -/
structure SalesPerson where
  guid : Option String
  fullName : Option String
deriving DecidableEq

/-- A customer reference on an order or credit note (`Customer` object). -/
structure Customer where
  customerCode : Option String
  customerName : Option String
deriving DecidableEq

/-- The product object embedded in an order line (`Product`). -/
structure ProductRef where
  productCode : Option String
  productDescription : Option String
  defaultPurchasePrice : Option Money
  averageLandPrice : Option Money
deriving DecidableEq

/-- An order line (`SalesOrderLines` element). -/
structure OrderLine where
  product : Option ProductRef
  lineTotal : Option Money
  orderQuantity : Option Money
  unitCost : Option Money
deriving DecidableEq

/-- A sales order. -/
structure Order where
  customer : Option Customer
  subTotal : Option Money
  salesPerson : Option SalesPerson
  salesOrderLines : List OrderLine
deriving DecidableEq

/-- A credit note. -/
structure CreditNote where
  customer : Option Customer
  subTotal : Option Money
deriving DecidableEq

/-- A product-catalog entry as consumed by the margin function: the code is
indexed directly (`p[ProductCode]`), the purchase price read with a
default. -/
structure CatalogProduct where
  productCode : String
  defaultPurchasePrice : Option Money
deriving DecidableEq

/-- The empty dict used as default for a missing `Customer` object. -/
def emptyCustomer : Customer := ⟨none, none⟩

/-- The empty dict used as default for a missing `Product` object. -/
def emptyProductRef : ProductRef := ⟨none, none, none, none⟩

/-- `order.get(Customer, \x7b\x7d).get(CustomerCode, Unknown)`. -/
def Order.customerCode (o : Order) : String :=
  ((o.customer.getD emptyCustomer).customerCode.getD ("Unknown"))

/-- `order.get(Customer, \x7b\x7d).get(CustomerName, Unknown)`. -/
def Order.customerName (o : Order) : String :=
  ((o.customer.getD emptyCustomer).customerName.getD ("Unknown"))

/-- `order.get(Customer, \x7b\x7d).get(CustomerCode)` (no default):
the raw, possibly missing customer code used by the exclusion filter. -/
def Order.rawCustomerCode (o : Order) : Option String :=
  (o.customer.getD emptyCustomer).customerCode

/-- `order.get(SubTotal, 0)`. -/
def Order.subTotalD (o : Order) : Money := o.subTotal.getD 0

/-- `note.get(SubTotal, 0)`. -/
def CreditNote.subTotalD (n : CreditNote) : Money := n.subTotal.getD 0

/-- `note.get(Customer, \x7b\x7d).get(CustomerCode)` for credit notes. -/
def CreditNote.rawCustomerCode (n : CreditNote) : Option String :=
  (n.customer.getD emptyCustomer).customerCode

/-- `line.get(Product, \x7b\x7d).get(ProductCode, Unknown)`. -/
def OrderLine.productCode (l : OrderLine) : String :=
  ((l.product.getD emptyProductRef).productCode.getD ("Unknown"))

/-- `line.get(Product, \x7b\x7d).get(ProductDescription, Unknown)`. -/
def OrderLine.productName (l : OrderLine) : String :=
  ((l.product.getD emptyProductRef).productDescription.getD ("Unknown"))

/-- `line.get(LineTotal, 0)`. -/
def OrderLine.lineTotalD (l : OrderLine) : Money := l.lineTotal.getD 0

/-- `line.get(OrderQuantity, 0)`. -/
def OrderLine.orderQuantityD (l : OrderLine) : Money := l.orderQuantity.getD 0

/- ------------------------------------------------------------------
Analytics functions (`app.py`, Analytics Functions section).
------------------------------------------------------------------- -/

/-- `calculate_total_sales`: sum of `SubTotal` over all orders. -/
def calculate_total_sales (orders : List Order) : Money :=
  (orders.map Order.subTotalD).sum

/-- `calculate_total_credit_notes`: sum of `SubTotal` over all notes. -/
def calculate_total_credit_notes (notes : List CreditNote) : Money :=
  (notes.map CreditNote.subTotalD).sum

/-- The zero-guarded percentage-change expression used by every per-group
comparison in the source:
`(change / previous * 100) if previous > 0 else (100 if current > 0 else 0)`. -/
def change_pct (current previous : Money) : Money :=
  if previous > 0 then (current - previous) / previous * 100
  else if current > 0 then 100 else 0

/-- Per-customer accumulator entry (`\x7bname: ..., revenue: ...\x7d`). -/
structure CustEntry where
  name : String
  revenue : Money
deriving DecidableEq

/-- The inner `get_customer_revenue` closure shared (textually identical) by
`get_top_customers_comparison` and `compare_customer_growth`: group orders
by customer code, recording the first-seen name and summing subtotals. -/
def get_customer_revenue (orders : List Order) : List (String × CustEntry) :=
  orders.foldl
    (fun data o =>
      updGroup o.customerCode ⟨o.customerName, 0⟩
        (fun e => { e with revenue := e.revenue + o.subTotalD }) data)
    []

/-- One row of a current-vs-previous comparison table. -/
structure CompRow where
  name : String
  currentRevenue : Money
  previousRevenue : Money
  change : Money
  changePct : Money
deriving DecidableEq

/-- Union of the key sets of the two periods (`set(cur) | set(prev)`),
determinized to current-period keys first, then new previous-period keys. -/
def unionKeys (ks1 ks2 : List String) : List String :=
  ks1 ++ ks2.filter (fun k => !(ks1.contains k))

/-- The comparison rows of `get_top_customers_comparison` before the final
top-N selection: one row per customer code appearing in either period. -/
def customers_comparison (current_orders previous_orders : List Order) : List CompRow :=
  let current_data := get_customer_revenue current_orders
  let previous_data := get_customer_revenue previous_orders
  let all_customers := unionKeys (current_data.map Prod.fst) (previous_data.map Prod.fst)
  all_customers.map (fun code =>
    let current := (lookupG code current_data).getD ⟨"Unknown", 0⟩
    let previous := (lookupG code previous_data).getD ⟨"Unknown", 0⟩
    { name := if current.name ≠ "Unknown" then current.name else previous.name
      currentRevenue := current.revenue
      previousRevenue := previous.revenue
      change := current.revenue - previous.revenue
      changePct := change_pct current.revenue previous.revenue })

/-- `get_top_customers_comparison`: comparison rows ranked by current
revenue, top `limit` (default 10 in the source). -/
def get_top_customers_comparison (current_orders previous_orders : List Order)
    (limit : ℕ) : List CompRow :=
  nlargestBy (fun r => r.currentRevenue) limit
    (customers_comparison current_orders previous_orders)

/-- The inner `get_product_revenue` closure of `get_top_products_comparison`:
group the order lines of all orders by product code, summing `LineTotal`. -/
def get_product_revenue (orders : List Order) : List (String × CustEntry) :=
  orders.foldl
    (fun data o =>
      o.salesOrderLines.foldl
        (fun data line =>
          updGroup line.productCode ⟨line.productName, 0⟩
            (fun e => { e with revenue := e.revenue + line.lineTotalD }) data)
        data)
    []

/-- The comparison rows of `get_top_products_comparison` before top-N. -/
def products_comparison (current_orders previous_orders : List Order) : List CompRow :=
  let current_data := get_product_revenue current_orders
  let previous_data := get_product_revenue previous_orders
  let all_products := unionKeys (current_data.map Prod.fst) (previous_data.map Prod.fst)
  all_products.map (fun code =>
    let current := (lookupG code current_data).getD ⟨"Unknown", 0⟩
    let previous := (lookupG code previous_data).getD ⟨"Unknown", 0⟩
    { name := if current.name ≠ "Unknown" then current.name else previous.name
      currentRevenue := current.revenue
      previousRevenue := previous.revenue
      change := current.revenue - previous.revenue
      changePct := change_pct current.revenue previous.revenue })

/-- `get_top_products_comparison`: product rows ranked by current revenue. -/
def get_top_products_comparison (current_orders previous_orders : List Order)
    (limit : ℕ) : List CompRow :=
  nlargestBy (fun r => r.currentRevenue) limit
    (products_comparison current_orders previous_orders)

/- ------------------------------------------------------------------
Margin analytics (`get_top_products_by_margin_comparison`).
------------------------------------------------------------------- -/

/-- Python `a or b` on numbers: `a` when it is truthy (nonzero), else `b`. -/
def pyOr (a b : Money) : Money := if a = 0 then b else a

/-- The product-code-to-cost dict comprehension
`p[ProductCode] : p.get(DefaultPurchasePrice, 0) for p in products_list`
(on duplicate codes the later entry overwrites the earlier one). -/
def build_product_costs (products : List CatalogProduct) : List (String × Money) :=
  products.foldl
    (fun m p => updGroup p.productCode (p.defaultPurchasePrice.getD 0)
      (fun _ => p.defaultPurchasePrice.getD 0) m)
    []

/-- The unit-cost resolution of a line inside `get_product_margin`:
`unit_cost = line.get(UnitCost, 0)`, and when that is 0, the chain
`DefaultPurchasePrice or AverageLandPrice or product_costs.get(code, 0)`. -/
def resolve_unit_cost (line : OrderLine) (product_costs : List (String × Money)) : Money :=
  let unit_cost := line.unitCost.getD 0
  if unit_cost = 0 then
    let product_obj := line.product.getD emptyProductRef
    pyOr (product_obj.defaultPurchasePrice.getD 0)
      (pyOr (product_obj.averageLandPrice.getD 0)
        ((lookupG line.productCode product_costs).getD 0))
  else unit_cost

/-- Per-product accumulator of the margin aggregation. -/
structure MarginEntry where
  name : String
  margin : Money
  revenue : Money
deriving DecidableEq

/-- The inner `get_product_margin` closure: for every line of every order,
add `line_total - quantity * unit_cost` to the margin of its product code
and `line_total` to its revenue. -/
def get_product_margin (orders : List Order) (product_costs : List (String × Money)) :
    List (String × MarginEntry) :=
  orders.foldl
    (fun data o =>
      o.salesOrderLines.foldl
        (fun data line =>
          let line_total := line.lineTotalD
          let quantity := line.orderQuantityD
          let unit_cost := resolve_unit_cost line product_costs
          let margin := line_total - quantity * unit_cost
          updGroup line.productCode ⟨line.productName, 0, 0⟩
            (fun e => { e with margin := e.margin + margin,
                               revenue := e.revenue + line_total }) data)
        data)
    []

/-- One row of the margin comparison table. -/
structure MarginRow where
  name : String
  currentMargin : Money
  previousMargin : Money
  marginPct : Money
  change : Money
  changePct : Money
deriving DecidableEq

/-- The comparison rows of `get_top_products_by_margin_comparison` before
the top-N selection. -/
def margin_comparison (current_orders previous_orders : List Order)
    (products_list : List CatalogProduct) : List MarginRow :=
  let product_costs := build_product_costs products_list
  let current_data := get_product_margin current_orders product_costs
  let previous_data := get_product_margin previous_orders product_costs
  let all_products := unionKeys (current_data.map Prod.fst) (previous_data.map Prod.fst)
  all_products.map (fun code =>
    let current := (lookupG code current_data).getD ⟨"Unknown", 0, 0⟩
    let previous := (lookupG code previous_data).getD ⟨"Unknown", 0, 0⟩
    { name := if current.name ≠ "Unknown" then current.name else previous.name
      currentMargin := current.margin
      previousMargin := previous.margin
      marginPct := if current.revenue > 0 then current.margin / current.revenue * 100 else 0
      change := current.margin - previous.margin
      changePct := change_pct current.margin previous.margin })

/-- `get_top_products_by_margin_comparison`: margin rows ranked descending
by current margin, top `limit` (default 10 in the source). -/
def get_top_products_by_margin_comparison (current_orders previous_orders : List Order)
    (products_list : List CatalogProduct) (limit : ℕ) : List MarginRow :=
  nlargestBy (fun r => r.currentMargin) limit
    (margin_comparison current_orders previous_orders products_list)

/- ------------------------------------------------------------------
Salesperson analytics (`get_salesperson_revenue`).
------------------------------------------------------------------- -/

/-- Per-salesperson accumulator entry. -/
structure SpEntry where
  name : String
  revenue : Money
  orders : ℕ
deriving DecidableEq

/-- One row of the salesperson table. -/
structure SpRow where
  salesperson : String
  revenue : Money
  orders : ℕ
deriving DecidableEq

/-- The grouping loop of `get_salesperson_revenue`: orders whose
`SalesPerson` object is missing (falsy) are skipped (`continue`); the rest
are grouped by salesperson Guid, summing subtotal and counting orders. -/
def get_salesperson_data (orders : List Order) : List (String × SpEntry) :=
  orders.foldl
    (fun data o =>
      match o.salesPerson with
      | none => data
      | some sp =>
          updGroup (sp.guid.getD ("Unknown")) ⟨sp.fullName.getD ("Unknown"), 0, 0⟩
            (fun e => { e with revenue := e.revenue + o.subTotalD,
                               orders := e.orders + 1 }) data)
    []

/-- `get_salesperson_revenue`: the grouped rows sorted descending by revenue. -/
def get_salesperson_revenue (orders : List Order) : List SpRow :=
  sortDescBy (fun r => r.revenue)
    ((get_salesperson_data orders).map (fun kv => ⟨kv.2.name, kv.2.revenue, kv.2.orders⟩))

/-- The percentage-change lambda of the salesperson comparison block in
`main` (`sp_comparison[Change %]`): same zero-guarded convention as the
per-group comparisons. -/
def sp_change_pct (revenue_current revenue_previous : Money) : Money :=
  if revenue_previous > 0 then (revenue_current - revenue_previous) / revenue_previous * 100
  else if revenue_current > 0 then 100 else 0

/- ------------------------------------------------------------------
Top-level summary metrics and exclusion filter (`main`).
------------------------------------------------------------------- -/

/-- The top-level total-sales percentage change computed in `main`:
`(sales_change / previous_sales * 100) if previous_sales > 0 else 0`.
Note: unlike the per-group comparisons, there is no `100 if current > 0`
branch. -/
def sales_change_percent (current_orders previous_orders : List Order) : Money :=
  let current_sales := calculate_total_sales current_orders
  let previous_sales := calculate_total_sales previous_orders
  if previous_sales > 0 then (current_sales - previous_sales) / previous_sales * 100 else 0

/-- The top-level credit-notes percentage change computed in `main`:
`(credit_change / previous_credit_total * 100) if previous_credit_total > 0 else 0`. -/
def credit_change_percent (current_notes previous_notes : List CreditNote) : Money :=
  let current_total := calculate_total_credit_notes current_notes
  let previous_total := calculate_total_credit_notes previous_notes
  if previous_total > 0 then (current_total - previous_total) / previous_total * 100 else 0

/-- The fixed exclusion list of `main`. -/
def EXCLUDED_CUSTOMERS : List String := ["Virtugroup", "Fengrong"]

/-- The order filter in `main`: keep orders whose raw customer code is not
in the exclusion list (a missing code is not in the list, so kept). -/
def filter_excluded_orders (orders : List Order) : List Order :=
  orders.filter (fun o =>
    match o.rawCustomerCode with
    | some c => !(EXCLUDED_CUSTOMERS.contains c)
    | none => true)

/-- The credit-note filter in `main`. -/
def filter_excluded_notes (notes : List CreditNote) : List CreditNote :=
  notes.filter (fun n =>
    match n.rawCustomerCode with
    | some c => !(EXCLUDED_CUSTOMERS.contains c)
    | none => true)

/-- Insertion step for an ascending sort on a numeric field. -/
def insertAscBy (f : α → Money) (x : α) : List α → List α
  | [] => [x]
  | y :: ys => if f x < f y then x :: y :: ys else y :: insertAscBy f x ys

/-- Stable ascending sort on a numeric field. -/
def sortAscBy (f : α → Money) : List α → List α
  | [] => []
  | x :: xs => insertAscBy f x (sortAscBy f xs)

/-- The embedding of pandas `nsmallest(n, field)`. -/
def nsmallestBy (f : α → Money) (n : ℕ) (l : List α) : List α :=
  (sortAscBy f l).take n

/-- `compare_customer_growth`: the same customer comparison rows, split into
the top `limit` rows by largest change and by smallest change. -/
def compare_customer_growth (current_orders previous_orders : List Order)
    (limit : ℕ) : List CompRow × List CompRow :=
  let df := customers_comparison current_orders previous_orders
  (nlargestBy (fun r => r.change) limit df, nsmallestBy (fun r => r.change) limit df)

/- ------------------------------------------------------------------
Period calculation (`main`, date-range section).
Dates are embedded as year/month/day triples with the Gregorian calendar
rules used by the Python datetime library.
------------------------------------------------------------------- -/

/-- Gregorian leap-year rule. -/
def isLeapYear (y : ℕ) : Bool :=
  (y % 4 == 0 && y % 100 != 0) || (y % 400 == 0)

/-- Number of days in a month of a given year. -/
def daysInMonth (y m : ℕ) : ℕ :=
  if m = 2 then (if isLeapYear y then 29 else 28)
  else if m = 4 ∨ m = 6 ∨ m = 9 ∨ m = 11 then 30 else 31

/-- A calendar date. -/
structure Date where
  year : ℕ
  month : ℕ
  day : ℕ
deriving DecidableEq

/-- Validity of a date (what Python datetime enforces on construction). -/
def Date.Valid (d : Date) : Prop :=
  1 ≤ d.month ∧ d.month ≤ 12 ∧ 1 ≤ d.day ∧ d.day ≤ daysInMonth d.year d.month

instance (d : Date) : Decidable d.Valid := by
  unfold Date.Valid
  infer_instance

/-- The previous calendar day (the embedding of `- timedelta(days=1)`). -/
def predDate (d : Date) : Date :=
  if 1 < d.day then ⟨d.year, d.month, d.day - 1⟩
  else if 1 < d.month then ⟨d.year, d.month - 1, daysInMonth d.year (d.month - 1)⟩
  else ⟨d.year - 1, 12, 31⟩

/-- The next calendar day. -/
def succDate (d : Date) : Date :=
  if d.day < daysInMonth d.year d.month then ⟨d.year, d.month, d.day + 1⟩
  else if d.month < 12 then ⟨d.year, d.month + 1, 1⟩
  else ⟨d.year + 1, 1, 1⟩

/-- `date + timedelta(days=n)`. -/
def addDays (d : Date) : ℕ → Date
  | 0 => d
  | n + 1 => addDays (succDate d) n

/-- `date.replace(day=n)`: `some` of the replaced date when `n` is a valid
day of that month, `none` when Python would raise ValueError. -/
def replaceDay (d : Date) (n : ℕ) : Option Date :=
  if 1 ≤ n ∧ n ≤ daysInMonth d.year d.month then some ⟨d.year, d.month, n⟩ else none

/-- Days of the year strictly before the first of a given month. -/
def daysBeforeMonth (y m : ℕ) : ℕ :=
  (List.range (m - 1)).foldl (fun acc i => acc + daysInMonth y (i + 1)) 0

/-- Ordinal day within the year (Jan 1 is day 1). -/
def dayOfYear (d : Date) : ℕ :=
  daysBeforeMonth d.year d.month + d.day

/-- The monthly previous period computed by `main`:
`previous_month = today.replace(day=1) - timedelta(days=1)` (last day of
the preceding month); start is its first day; the end is
`previous_month.replace(day=today.day)`, falling back to `previous_month`
itself when that raises ValueError. -/
def monthlyPrevious (today : Date) : Date × Date :=
  let previous_month := predDate ⟨today.year, today.month, 1⟩
  let previous_start : Date := ⟨previous_month.year, previous_month.month, 1⟩
  let previous_end :=
    match replaceDay previous_month today.day with
    | some d => d
    | none => previous_month
  (previous_start, previous_end)

/-- The quarterly previous period computed by `main`: zero-based quarter
`(month - 1) / 3`, days elapsed in the current quarter, previous quarter
with year wrap, and previous end = previous-quarter start plus the same
number of elapsed days. -/
def quarterlyPrevious (today : Date) : Date × Date :=
  let quarter := (today.month - 1) / 3
  let quarter_start_month := quarter * 3 + 1
  let quarter_start_date : Date := ⟨today.year, quarter_start_month, 1⟩
  let days_into_quarter := dayOfYear today - dayOfYear quarter_start_date
  let prev_year := if quarter = 0 then today.year - 1 else today.year
  let prev_quarter := if quarter = 0 then 3 else quarter - 1
  let prev_quarter_start_month := prev_quarter * 3 + 1
  let previous_start : Date := ⟨prev_year, prev_quarter_start_month, 1⟩
  let previous_end := addDays previous_start days_into_quarter
  (previous_start, previous_end)

/- ------------------------------------------------------------------
Spec-side period descriptions (written from the words of the spec, to be
compared with the embeddings above).
------------------------------------------------------------------- -/

/-- Spec-side: the year and month of the month preceding the month of a
date (January wraps to December of the prior year). -/
def specPrecedingMonth (d : Date) : ℕ × ℕ :=
  if d.month = 1 then (d.year - 1, 12) else (d.year, d.month - 1)

/-- Spec-side: one-based quarter of a month (Q1 = months 1-3, ...). -/
def quarterOf (m : ℕ) : ℕ := (m - 1) / 3 + 1

/-- Spec-side: first month of a one-based quarter. -/
def quarterFirstMonth (q : ℕ) : ℕ := 3 * q - 2

/-- Spec-side: first day of the quarter preceding the quarter of a date,
wrapping to Q4 of the prior calendar year when the date is in Q1. -/
def specPrevQuarterStart (d : Date) : Date :=
  if quarterOf d.month = 1 then ⟨d.year - 1, 10, 1⟩
  else ⟨d.year, quarterFirstMonth (quarterOf d.month - 1), 1⟩

/-- Spec-side: days elapsed in the current quarter as of the given date
(0 on the first day of the quarter). -/
def elapsedInQuarter (d : Date) : ℕ :=
  dayOfYear d - dayOfYear ⟨d.year, quarterFirstMonth (quarterOf d.month), 1⟩

/- ------------------------------------------------------------------
API client: pagination (`UnleashedAPI.get_all_pages`) and the caching
wrappers (`get_sales_orders` and friends).

A page request is embedded as a function from the page number to either an
error (a non-success HTTP status raised by `raise_for_status`, or any
other exception) or a parsed response body.  The unbounded `while True`
loop is embedded with explicit fuel; `none` means the fuel ran out before
the loop stopped.
------------------------------------------------------------------- -/

/-- A parsed response body: `data.get(Items, [])` and
`data.get(Pagination, \x7b\x7d).get(NumberOfPages, 1)`; a missing
pagination object or page count is `none`. -/
structure PageResponse (α : Type) where
  items : List α
  numberOfPages : Option ℕ
deriving DecidableEq

/-- The observable result of a pagination run: the page numbers requested,
in request order, and either the propagated error or the accumulated
item list. -/
structure PagesResult (ε α : Type) where
  pages : List ℕ
  outcome : Except ε (List α)

/-- The loop body of `get_all_pages`, with fuel.  Mirrors the source order:
request the page; on an exception propagate it; if `Items` is empty stop
with the accumulated items; otherwise extend, then stop if the page number
has reached `NumberOfPages` (default 1 when missing), else continue with
the next page number. -/
def get_all_pages_go (resp : ℕ → Except ε (PageResponse α)) :
    ℕ → ℕ → List α → List ℕ → Option (PagesResult ε α)
  | 0, _, _, _ => none
  | fuel + 1, page, all_items, trace =>
    match resp page with
    | Except.error e => some ⟨trace ++ [page], Except.error e⟩
    | Except.ok data =>
      if data.items.isEmpty then some ⟨trace ++ [page], Except.ok all_items⟩
      else if data.numberOfPages.getD 1 ≤ page then
        some ⟨trace ++ [page], Except.ok (all_items ++ data.items)⟩
      else get_all_pages_go resp fuel (page + 1) (all_items ++ data.items) (trace ++ [page])

/-- `get_all_pages`: run the loop from page 1 with empty accumulator. -/
def get_all_pages (resp : ℕ → Except ε (PageResponse α)) (fuel : ℕ) :
    Option (PagesResult ε α) :=
  get_all_pages_go resp fuel 1 [] []

/-- The items served for a page, `[]` on an error (used only to state what
the concatenated result is; the theorems require the relevant pages to be
successes). -/
def pageItems (resp : ℕ → Except ε (PageResponse α)) (p : ℕ) : List α :=
  match resp p with
  | Except.ok r => r.items
  | Except.error _ => []

/-- Concatenation of the items of a list of pages, in page order. -/
def catItems (resp : ℕ → Except ε (PageResponse α)) : List ℕ → List α
  | [] => []
  | p :: ps => pageItems resp p ++ catItems resp ps

/- ------------------------------------------------------------------
Persistent cache (`load_from_cache`, `save_to_cache`) and the
fetch-with-cache wrappers.
------------------------------------------------------------------- -/

/-- An on-disk cache entry: its modification time (seconds) and its
content; `none` content embeds an unreadable or unpicklable file. -/
structure CacheFile (α : Type) where
  mtime : ℚ
  content : Option α

/-- `load_from_cache`: return the stored data only when the file exists,
its age is under `max_age_hours` hours, and unpickling succeeds; every
other path returns `none` (the source swallows read errors with a bare
try/except). -/
def load_from_cache (file : Option (CacheFile α)) (now : ℚ) (max_age_hours : ℚ) : Option α :=
  match file with
  | none => none
  | some f => if now - f.mtime < max_age_hours * 3600 then f.content else none

/-- `save_to_cache` over an explicit store state: on a successful write the
key maps to a fresh readable entry; on a write failure (`write_ok = false`)
the exception is swallowed and the store is unchanged — the function is
total either way. -/
def save_to_cache (store : String → Option (CacheFile α)) (key : String) (data : α)
    (now : ℚ) (write_ok : Bool) : String → Option (CacheFile α) :=
  if write_ok then (fun k => if k = key then some ⟨now, some data⟩ else store k) else store

/-- Result of one cached fetch operation: what the caller receives, and
what (if anything) was written to the cache for the key. -/
structure FetchOutcome (ε α : Type) where
  result : Except ε α
  cache_write : Option α

/-- The shared body of `get_sales_orders`, `get_products`,
`get_salespersons` and `get_credit_notes`: return the cached data when the
cache hits; otherwise run the live fetch — an exception propagates before
`save_to_cache` is reached, a success is saved and returned. -/
def fetch_with_cache (cached : Option α) (fetch : Except ε α) : FetchOutcome ε α :=
  match cached with
  | some d => ⟨Except.ok d, none⟩
  | none =>
    match fetch with
    | Except.error e => ⟨Except.error e, none⟩
    | Except.ok d => ⟨Except.ok d, some d⟩

/-- `get_sales_orders` with its cache key
`sales_orders_<start>_<end>` made explicit. -/
def get_sales_orders_cached (store : String → Option (CacheFile (List Order))) (now : ℚ)
    (start_date end_date : String) (fetch : Except ε (List Order)) :
    FetchOutcome ε (List Order) :=
  fetch_with_cache
    (load_from_cache (store ("sales_orders_" ++ start_date ++ "_" ++ end_date)) now 2) fetch

/-- The sequential fetch block of `main` inside its try/except: five
fetches in source order; the first exception aborts the whole data load,
so data is rendered only when every fetch succeeded. -/
def load_dashboard_data (current_orders previous_orders : Except ε (List Order))
    (products : Except ε (List CatalogProduct))
    (current_notes previous_notes : Except ε (List CreditNote)) :
    Except ε (List Order × List Order × List CatalogProduct × List CreditNote × List CreditNote) :=
  match current_orders with
  | Except.error e => Except.error e
  | Except.ok a =>
    match previous_orders with
    | Except.error e => Except.error e
    | Except.ok b =>
      match products with
      | Except.error e => Except.error e
      | Except.ok c =>
        match current_notes with
        | Except.error e => Except.error e
        | Except.ok d =>
          match previous_notes with
          | Except.error e => Except.error e
          | Except.ok f => Except.ok (a, b, c, d, f)

/- ------------------------------------------------------------------
Request signing (`UnleashedAPI._generate_signature`, `_make_request`).

The cryptographic primitives the source calls from the standard library
(UTF-8 encoding, SHA-256, HMAC, base64) are embedded as executable Lean
functions on byte lists; 32-bit words are naturals reduced mod 2^32.
------------------------------------------------------------------- -/

/-- UTF-8 encoding of a single code point. -/
def utf8Bytes (c : ℕ) : List ℕ :=
  if c < 128 then [c]
  else if c < 2048 then [192 ||| (c >>> 6), 128 ||| (c &&& 63)]
  else if c < 65536 then
    [224 ||| (c >>> 12), 128 ||| ((c >>> 6) &&& 63), 128 ||| (c &&& 63)]
  else
    [240 ||| (c >>> 18), 128 ||| ((c >>> 12) &&& 63),
     128 ||| ((c >>> 6) &&& 63), 128 ||| (c &&& 63)]

/-- `s.encode(utf-8)`: the UTF-8 bytes of a string. -/
def strBytes (s : String) : List ℕ :=
  (s.data.map (fun c => utf8Bytes c.toNat)).flatten

/-- Reduction of a natural to a 32-bit word. -/
def m32 (x : ℕ) : ℕ := x % 4294967296

/-- 32-bit right rotation. -/
def rotr32 (x n : ℕ) : ℕ := m32 ((x >>> n) ||| (x <<< (32 - n)))

/-- 32-bit complement. -/
def not32 (x : ℕ) : ℕ := 4294967295 ^^^ x

/-- SHA-256 big sigma-0. -/
def bSig0 (x : ℕ) : ℕ := rotr32 x 2 ^^^ rotr32 x 13 ^^^ rotr32 x 22

/-- SHA-256 big sigma-1. -/
def bSig1 (x : ℕ) : ℕ := rotr32 x 6 ^^^ rotr32 x 11 ^^^ rotr32 x 25

/-- SHA-256 small sigma-0. -/
def sSig0 (x : ℕ) : ℕ := rotr32 x 7 ^^^ rotr32 x 18 ^^^ (x >>> 3)

/-- SHA-256 small sigma-1. -/
def sSig1 (x : ℕ) : ℕ := rotr32 x 17 ^^^ rotr32 x 19 ^^^ (x >>> 10)

/-- SHA-256 choice function. -/
def shaCh (x y z : ℕ) : ℕ := (x &&& y) ^^^ (not32 x &&& z)

/-- SHA-256 majority function. -/
def shaMaj (x y z : ℕ) : ℕ := (x &&& y) ^^^ (x &&& z) ^^^ (y &&& z)

/-- SHA-256 round constants. -/
def sha256K : List ℕ :=
  [1116352408, 1899447441, 3049323471, 3921009573, 961987163,
   1508970993, 2453635748, 2870763221, 3624381080, 310598401,
   607225278, 1426881987, 1925078388, 2162078206, 2614888103,
   3248222580, 3835390401, 4022224774, 264347078, 604807628,
   770255983, 1249150122, 1555081692, 1996064986, 2554220882,
   2821834349, 2952996808, 3210313671, 3336571891, 3584528711,
   113926993, 338241895, 666307205, 773529912, 1294757372,
   1396182291, 1695183700, 1986661051, 2177026350, 2456956037,
   2730485921, 2820302411, 3259730800, 3345764771, 3516065817,
   3600352804, 4094571909, 275423344, 430227734, 506948616,
   659060556, 883997877, 958139571, 1322822218, 1537002063,
   1747873779, 1955562222, 2024104815, 2227730452, 2361852424,
   2428436474, 2756734187, 3204031479, 3329325298]

/-- SHA-256 initial hash value. -/
def sha256H0 : List ℕ :=
  [1779033703, 3144134277, 1013904242, 2773480762, 1359893119,
   2600822924, 528734635, 1541459225]

/-- Big-endian bytes of a natural, fixed width. -/
def toBytesBE : ℕ → ℕ → List ℕ
  | 0, _ => []
  | n + 1, v => toBytesBE n (v >>> 8) ++ [v &&& 255]

/-- SHA-256 message padding: append 0x80, zeros to 56 mod 64, then the
bit length as 8 big-endian bytes. -/
def shaPad (msg : List ℕ) : List ℕ :=
  let padZeros := (64 + 56 - (msg.length + 1) % 64) % 64
  msg ++ [128] ++ List.replicate padZeros 0 ++ toBytesBE 8 (8 * msg.length)

/-- Pack bytes into big-endian 32-bit words. -/
def bytesToWords : List ℕ → List ℕ
  | b1 :: b2 :: b3 :: b4 :: rest =>
      ((b1 <<< 24) ||| (b2 <<< 16) ||| (b3 <<< 8) ||| b4) :: bytesToWords rest
  | _ => []

/-- Split a word list into 16-word blocks (fuel-driven, structurally
recursive so concrete runs reduce in the kernel). -/
def chunk16 : ℕ → List ℕ → List (List ℕ)
  | 0, _ => []
  | _, [] => []
  | n + 1, ws => ws.take 16 :: chunk16 n (ws.drop 16)

/-- Extend a 16-word block to the 64-word message schedule. -/
def shaExtend : ℕ → List ℕ → List ℕ
  | 0, ws => ws
  | n + 1, ws =>
    let t := ws.length
    let w := m32 (sSig1 (ws.getD (t - 2) 0) + ws.getD (t - 7) 0 +
                  sSig0 (ws.getD (t - 15) 0) + ws.getD (t - 16) 0)
    shaExtend n (ws ++ [w])

/-- The eight working variables of the compression function. -/
structure ShaState where
  a : ℕ
  b : ℕ
  c : ℕ
  d : ℕ
  e : ℕ
  f : ℕ
  g : ℕ
  h : ℕ

/-- One round of the SHA-256 compression function. -/
def shaRound (w k : ℕ) (s : ShaState) : ShaState :=
  let t1 := m32 (s.h + bSig1 s.e + shaCh s.e s.f s.g + k + w)
  let t2 := m32 (bSig0 s.a + shaMaj s.a s.b s.c)
  ⟨m32 (t1 + t2), s.a, s.b, s.c, m32 (s.d + t1), s.e, s.f, s.g⟩

/-- Run the 64 compression rounds of one block. -/
def shaRounds : List ℕ → List ℕ → ShaState → ShaState
  | w :: ws, k :: ks, s => shaRounds ws ks (shaRound w k s)
  | _, _, s => s

/-- Process one 16-word block against the running hash (8 words). -/
def shaBlock (hsh : List ℕ) (block : List ℕ) : List ℕ :=
  let w := shaExtend 48 block
  let s0 : ShaState := ⟨hsh.getD 0 0, hsh.getD 1 0, hsh.getD 2 0, hsh.getD 3 0,
                        hsh.getD 4 0, hsh.getD 5 0, hsh.getD 6 0, hsh.getD 7 0⟩
  let s := shaRounds w sha256K s0
  [m32 (hsh.getD 0 0 + s.a), m32 (hsh.getD 1 0 + s.b), m32 (hsh.getD 2 0 + s.c),
   m32 (hsh.getD 3 0 + s.d), m32 (hsh.getD 4 0 + s.e), m32 (hsh.getD 5 0 + s.f),
   m32 (hsh.getD 6 0 + s.g), m32 (hsh.getD 7 0 + s.h)]

/-- SHA-256 of a byte list, as a 32-byte list. -/
def sha256 (msg : List ℕ) : List ℕ :=
  let ws := bytesToWords (shaPad msg)
  let blocks := chunk16 ws.length ws
  let final := blocks.foldl shaBlock sha256H0
  (final.map (toBytesBE 4)).flatten

/-- HMAC-SHA256: keyed hash with 64-byte block size, ipad 0x36, opad 0x5c. -/
def hmacSha256 (key msg : List ℕ) : List ℕ :=
  let k0 := if 64 < key.length then sha256 key else key
  let k := k0 ++ List.replicate (64 - k0.length) 0
  let ipad := k.map (fun b => b ^^^ 54)
  let opad := k.map (fun b => b ^^^ 92)
  sha256 (opad ++ sha256 (ipad ++ msg))

/-- The base64 alphabet. -/
def b64Alphabet : List Char :=
  ("ABCDEFGHIJKLMNOPQRSTUVWXYZabcdefghijklmnopqrstuvwxyz0123456789+/").data

/-- Character of a 6-bit group. -/
def b64Char (n : ℕ) : Char := b64Alphabet.getD n 'A'

/-- Base64 encoding of a byte list into characters, with padding. -/
def b64Chunks : List ℕ → List Char
  | b1 :: b2 :: b3 :: rest =>
      b64Char (b1 >>> 2) :: b64Char (((b1 &&& 3) <<< 4) ||| (b2 >>> 4)) ::
      b64Char (((b2 &&& 15) <<< 2) ||| (b3 >>> 6)) :: b64Char (b3 &&& 63) :: b64Chunks rest
  | [b1, b2] =>
      [b64Char (b1 >>> 2), b64Char (((b1 &&& 3) <<< 4) ||| (b2 >>> 4)),
       b64Char ((b2 &&& 15) <<< 2), '=']
  | [b1] => [b64Char (b1 >>> 2), b64Char ((b1 &&& 3) <<< 4), '=', '=']
  | [] => []

/-- `base64.b64encode(...).decode(utf-8)`. -/
def base64Encode (bytes : List ℕ) : String := String.mk (b64Chunks bytes)

/-- The characters `urllib.parse.quote_plus` leaves unescaped. -/
def isSafeChar (c : Char) : Bool :=
  c.isAlphanum || c = '_' || c = '.' || c = '-' || c = '~'

/-- Upper-case hex digit. -/
def hexDigit (n : ℕ) : Char := (("0123456789ABCDEF").data).getD n '0'

/-- `quote_plus` on one character: safe characters pass through, space
becomes +, everything else is percent-encoded per UTF-8 byte. -/
def quotePlusChar (c : Char) : List Char :=
  if isSafeChar c then [c]
  else if c = ' ' then ['+']
  else ((utf8Bytes c.toNat).map
    (fun b => ['%', hexDigit (b >>> 4), hexDigit (b &&& 15)])).flatten

/-- `urllib.parse.quote_plus` on a string. -/
def quotePlus (s : String) : String := String.mk ((s.data.map quotePlusChar).flatten)

/-- `urllib.parse.urlencode` on a parameter list (dict in insertion
order): ampersand-joined `key=value` pairs, both sides quote_plus-ed. -/
def urlencode (params : List (String × String)) : String :=
  String.intercalate ("&") (params.map (fun kv => quotePlus kv.1 ++ "=" ++ quotePlus kv.2))

/-- `UnleashedAPI._generate_signature`: base64 of the HMAC-SHA256 of the
query string, keyed by the UTF-8 bytes of the secret API key. -/
def generate_signature (api_key query_string : String) : String :=
  base64Encode (hmacSha256 (strBytes api_key) (strBytes query_string))

/-- The observable request built by `_make_request`: full URL and the
three headers. -/
structure ApiRequest where
  url : String
  accept : String
  apiAuthId : String
  apiAuthSignature : String
deriving DecidableEq

/-- The fixed base URL of the client. -/
def base_url : String := "https://api.unleashedsoftware.com"

/-- The query string `_make_request` builds: `urlencode(params)` when
`params` is truthy (present and non-empty), else the empty string. -/
def requestQueryString (params : Option (List (String × String))) : String :=
  match params with
  | some ps => if ps.isEmpty then "" else urlencode ps
  | none => ""

/-- `UnleashedAPI._make_request`: sign the query string only, send the
identifier and signature as headers, and append the query string to the
path to form the URL. -/
def make_request (api_id api_key endpoint : String)
    (params : Option (List (String × String))) : ApiRequest :=
  let query_string := requestQueryString params
  let signature := generate_signature api_key query_string
  let full_url :=
    if query_string = "" then base_url ++ endpoint
    else base_url ++ endpoint ++ "?" ++ query_string
  ⟨full_url, "application/json", api_id, signature⟩

/- ------------------------------------------------------------------
Support definitions for the theorems: a generic view of the grouping
folds, the flattened line list, and spec-side descriptions.
------------------------------------------------------------------- -/

/-- Generic grouping fold: each record updates the group of its key.  Every
aggregation loop of the source is an instance of this shape. -/
def groupFoldFrom (key0 : γ → String) (init0 : γ → β) (upd0 : γ → β → β)
    (data : List (String × β)) (records : List γ) : List (String × β) :=
  records.foldl (fun d r => updGroup (key0 r) (init0 r) (upd0 r) d) data

/-- Numeric field of a group, 0 when the key is absent. -/
def valF (f : β → Money) (l : List (String × β)) (c : String) : Money :=
  ((lookupG c l).map f).getD 0

/-- All order lines of a list of orders, in order. -/
def allLines : List Order → List OrderLine
  | [] => []
  | o :: rest => o.salesOrderLines ++ allLines rest

/-- The salesperson object of an order, defaulted (only used on orders the
source does not skip, i.e. those with a salesperson present). -/
def spOf (o : Order) : SalesPerson := o.salesPerson.getD ⟨none, none⟩

/-- Key of the salesperson grouping. -/
def spKey (o : Order) : String := (spOf o).guid.getD ("Unknown")

/-- Spec-side description of the unit-cost fallback chain: the first stage
whose value is present and nonzero among line unit cost, default purchase
price, average landed price, then the catalog-map cost, else zero. -/
def specUnitCost (line_cost dpp alp map_cost : Money) : Money :=
  if line_cost ≠ 0 then line_cost
  else if dpp ≠ 0 then dpp
  else if alp ≠ 0 then alp
  else map_cost

/-- The default purchase price carried on a lines product object. -/
def OrderLine.dppD (l : OrderLine) : Money :=
  (l.product.getD emptyProductRef).defaultPurchasePrice.getD 0

/-- The average landed price carried on a lines product object. -/
def OrderLine.alpD (l : OrderLine) : Money :=
  (l.product.getD emptyProductRef).averageLandPrice.getD 0

/-- An order with a positive subtotal and no salesperson and no lines
(used as concrete input in counterexamples). -/
def noSpOrder : Order := ⟨none, some 100, none, []⟩

/-- An order with subtotal 5 (used as concrete input). -/
def subFiveOrder : Order := ⟨none, some 5, none, []⟩

/-- The per-line margin contribution used by `get_product_margin`. -/
def lineMargin (product_costs : List (String × Money)) (l : OrderLine) : Money :=
  l.lineTotalD - l.orderQuantityD * resolve_unit_cost l product_costs

/-- A line with an explicit unit cost of exactly 0, a zero default purchase
price and a nonzero average landed price (used as concrete input). -/
def zeroCostLine : OrderLine :=
  ⟨some ⟨some ("P1"), none, some 0, some 7⟩, some 50, some 2, some 0⟩

/- ------------------------------------------------------------------
Lemmas about the association-list machinery.
------------------------------------------------------------------- -/

theorem lookupG_updGroup_self (key : String) (init : β) (upd : β → β) :
    ∀ l : List (String × β),
      lookupG key (updGroup key init upd l) = some (upd ((lookupG key l).getD init))
  | [] => by simp [lookupG, updGroup]
  | (k, v) :: rest => by
      by_cases h : k = key
      · subst h; simp [lookupG, updGroup]
      · simp [lookupG, updGroup, h, lookupG_updGroup_self key init upd rest]

theorem lookupG_updGroup_ne (key k2 : String) (init : β) (upd : β → β) (h : k2 ≠ key) :
    ∀ l : List (String × β), lookupG k2 (updGroup key init upd l) = lookupG k2 l
  | [] => by
      have h2 : key ≠ k2 := fun e => h e.symm
      simp [lookupG, updGroup, h2]
  | (k, v) :: rest => by
      by_cases h3 : k = key
      · subst h3
        have h2 : k ≠ k2 := fun e => h e.symm
        simp [lookupG, updGroup, h2]
      · simp [lookupG, updGroup, h3, lookupG_updGroup_ne key k2 init upd h rest]

theorem keys_updGroup (key : String) (init : β) (upd : β → β) :
    ∀ l : List (String × β),
      (updGroup key init upd l).map Prod.fst
        = if key ∈ l.map Prod.fst then l.map Prod.fst else l.map Prod.fst ++ [key]
  | [] => by simp [updGroup]
  | (k, v) :: rest => by
      by_cases h : k = key
      · subst h; simp [updGroup]
      · have h2 : key ≠ k := fun e => h e.symm
        by_cases hm : key ∈ rest.map Prod.fst
        · simp [updGroup, h, keys_updGroup key init upd rest, hm, h2]
        · simp [updGroup, h, keys_updGroup key init upd rest, hm, h2]

theorem nodup_keys_updGroup (key : String) (init : β) (upd : β → β)
    (l : List (String × β)) (h : (l.map Prod.fst).Nodup) :
    ((updGroup key init upd l).map Prod.fst).Nodup := by
  rw [keys_updGroup]
  by_cases hm : key ∈ l.map Prod.fst
  · simpa [hm] using h
  · rw [if_neg hm]
    simp [List.nodup_append, h, hm]

theorem mem_keys_updGroup (key k2 : String) (init : β) (upd : β → β)
    (l : List (String × β)) :
    k2 ∈ (updGroup key init upd l).map Prod.fst ↔ k2 ∈ l.map Prod.fst ∨ k2 = key := by
  rw [keys_updGroup]
  by_cases hm : key ∈ l.map Prod.fst
  · simp only [hm, if_true]
    constructor
    · exact fun h => Or.inl h
    · rintro (h | rfl)
      · exact h
      · exact hm
  · simp [hm]

theorem sum_updGroup (f : β → Money) (a : Money) (key : String) (init : β) (upd : β → β)
    (hupd : ∀ v, f (upd v) = f v + a) (hinit : f init = 0) :
    ∀ l : List (String × β),
      ((updGroup key init upd l).map (fun kv => f kv.2)).sum
        = (l.map (fun kv => f kv.2)).sum + a
  | [] => by simp [updGroup, hupd, hinit]
  | (k, v) :: rest => by
      by_cases h : k = key
      · subst h; simp [updGroup, hupd]; ring
      · simp [updGroup, h, sum_updGroup f a key init upd hupd hinit rest]; ring

theorem valF_updGroup (f : β → Money) (a : Money) (key : String) (init : β) (upd : β → β)
    (hupd : ∀ v, f (upd v) = f v + a) (hinit : f init = 0)
    (l : List (String × β)) (c : String) :
    valF f (updGroup key init upd l) c
      = if c = key then valF f l c + a else valF f l c := by
  by_cases h : c = key
  · subst h
    rw [valF, lookupG_updGroup_self]
    cases h2 : lookupG c l <;> simp [valF, h2, hupd, hinit]
  · simp [valF, lookupG_updGroup_ne key c init upd h, h]

/- ------------------------------------------------------------------
Lemmas about the generic grouping fold.
------------------------------------------------------------------- -/

theorem groupFoldFrom_cons (key0 : γ → String) (init0 : γ → β) (upd0 : γ → β → β)
    (data : List (String × β)) (r : γ) (rs : List γ) :
    groupFoldFrom key0 init0 upd0 data (r :: rs)
      = groupFoldFrom key0 init0 upd0 (updGroup (key0 r) (init0 r) (upd0 r) data) rs := rfl

theorem sum_groupFoldFrom (key0 : γ → String) (init0 : γ → β) (upd0 : γ → β → β)
    (f : β → Money) (contrib : γ → Money)
    (hupd : ∀ r v, f (upd0 r v) = f v + contrib r) (hinit : ∀ r, f (init0 r) = 0) :
    ∀ (rs : List γ) (data : List (String × β)),
      ((groupFoldFrom key0 init0 upd0 data rs).map (fun kv => f kv.2)).sum
        = (data.map (fun kv => f kv.2)).sum + (rs.map contrib).sum
  | [], data => by simp [groupFoldFrom]
  | r :: rs, data => by
      rw [groupFoldFrom_cons,
        sum_groupFoldFrom key0 init0 upd0 f contrib hupd hinit rs _,
        sum_updGroup f (contrib r) (key0 r) (init0 r) (upd0 r) (hupd r) (hinit r) data]
      simp; ring

theorem valF_groupFoldFrom (key0 : γ → String) (init0 : γ → β) (upd0 : γ → β → β)
    (f : β → Money) (contrib : γ → Money)
    (hupd : ∀ r v, f (upd0 r v) = f v + contrib r) (hinit : ∀ r, f (init0 r) = 0) :
    ∀ (rs : List γ) (data : List (String × β)) (c : String),
      valF f (groupFoldFrom key0 init0 upd0 data rs) c
        = valF f data c + (((rs.filter (fun r => key0 r == c))).map contrib).sum
  | [], data, c => by simp [groupFoldFrom]
  | r :: rs, data, c => by
      rw [groupFoldFrom_cons,
        valF_groupFoldFrom key0 init0 upd0 f contrib hupd hinit rs _ c,
        valF_updGroup f (contrib r) (key0 r) (init0 r) (upd0 r) (hupd r) (hinit r) data c]
      by_cases h : key0 r = c
      · simp [h, List.filter_cons]; ring
      · have h2 : ¬ (c = key0 r) := fun e => h e.symm
        simp [h, h2, List.filter_cons]

theorem nodup_groupFoldFrom (key0 : γ → String) (init0 : γ → β) (upd0 : γ → β → β) :
    ∀ (rs : List γ) (data : List (String × β)),
      (data.map Prod.fst).Nodup → ((groupFoldFrom key0 init0 upd0 data rs).map Prod.fst).Nodup
  | [], data, h => h
  | r :: rs, data, h => by
      rw [groupFoldFrom_cons]
      exact nodup_groupFoldFrom key0 init0 upd0 rs _
        (nodup_keys_updGroup (key0 r) (init0 r) (upd0 r) data h)

theorem mem_keys_groupFoldFrom (key0 : γ → String) (init0 : γ → β) (upd0 : γ → β → β) :
    ∀ (rs : List γ) (data : List (String × β)) (c : String),
      c ∈ (groupFoldFrom key0 init0 upd0 data rs).map Prod.fst
        ↔ c ∈ data.map Prod.fst ∨ ∃ r ∈ rs, key0 r = c
  | [], data, c => by simp [groupFoldFrom]
  | r :: rs, data, c => by
      rw [groupFoldFrom_cons, mem_keys_groupFoldFrom key0 init0 upd0 rs _ c,
        mem_keys_updGroup (key0 r) c (init0 r) (upd0 r) data]
      constructor
      · rintro ((h | rfl) | ⟨r2, hr2, he⟩)
        · exact Or.inl h
        · exact Or.inr ⟨r, List.mem_cons_self r rs, rfl⟩
        · exact Or.inr ⟨r2, List.mem_cons_of_mem r hr2, he⟩
      · rintro (h | ⟨r2, hr2, he⟩)
        · exact Or.inl (Or.inl h)
        · rcases List.mem_cons.mp hr2 with rfl | hr3
          · exact Or.inl (Or.inr he.symm)
          · exact Or.inr ⟨r2, hr3, he⟩

/- ------------------------------------------------------------------
Bridges from the concrete aggregation functions to the generic fold.
------------------------------------------------------------------- -/

theorem get_customer_revenue_eq (orders : List Order) :
    get_customer_revenue orders
      = groupFoldFrom Order.customerCode (fun o => ⟨o.customerName, 0⟩)
          (fun o e => { e with revenue := e.revenue + o.subTotalD }) [] orders := rfl

theorem nested_foldl (step : List (String × β) → OrderLine → List (String × β)) :
    ∀ (orders : List Order) (data : List (String × β)),
      orders.foldl (fun d o => o.salesOrderLines.foldl step d) data
        = (allLines orders).foldl step data
  | [], _ => rfl
  | o :: rest, data => by
      simp only [List.foldl_cons, allLines, List.foldl_append]
      exact nested_foldl step rest _

theorem get_product_revenue_eq (orders : List Order) :
    get_product_revenue orders
      = groupFoldFrom OrderLine.productCode (fun l => ⟨l.productName, 0⟩)
          (fun l e => { e with revenue := e.revenue + l.lineTotalD }) [] (allLines orders) :=
  nested_foldl _ orders []

theorem get_product_margin_eq (orders : List Order) (product_costs : List (String × Money)) :
    get_product_margin orders product_costs
      = groupFoldFrom OrderLine.productCode (fun l => ⟨l.productName, 0, 0⟩)
          (fun l e => { e with margin := e.margin + lineMargin product_costs l,
                               revenue := e.revenue + l.lineTotalD }) [] (allLines orders) :=
  nested_foldl _ orders []

theorem get_salesperson_data_eq_aux :
    ∀ (orders : List Order) (data : List (String × SpEntry)),
      orders.foldl
        (fun data o =>
          match o.salesPerson with
          | none => data
          | some sp =>
              updGroup (sp.guid.getD ("Unknown")) ⟨sp.fullName.getD ("Unknown"), 0, 0⟩
                (fun e => { e with revenue := e.revenue + o.subTotalD,
                                   orders := e.orders + 1 }) data)
        data
      = groupFoldFrom spKey (fun o => ⟨(spOf o).fullName.getD ("Unknown"), 0, 0⟩)
          (fun o e => { e with revenue := e.revenue + o.subTotalD,
                               orders := e.orders + 1 })
          data (orders.filter (fun o => o.salesPerson.isSome))
  | [], data => rfl
  | o :: rest, data => by
      cases h : o.salesPerson with
      | none =>
          simp only [List.foldl_cons, h, List.filter_cons, Option.isSome_none,
            Bool.false_eq_true, if_false]
          exact get_salesperson_data_eq_aux rest data
      | some sp =>
          simp only [List.foldl_cons, h, List.filter_cons, Option.isSome_some, if_true]
          rw [groupFoldFrom_cons]
          have hk : spKey o = sp.guid.getD ("Unknown") := by simp [spKey, spOf, h]
          have hn : spOf o = sp := by simp [spOf, h]
          rw [get_salesperson_data_eq_aux rest _, hk, hn]

theorem get_salesperson_data_eq (orders : List Order) :
    get_salesperson_data orders
      = groupFoldFrom spKey (fun o => ⟨(spOf o).fullName.getD ("Unknown"), 0, 0⟩)
          (fun o e => { e with revenue := e.revenue + o.subTotalD,
                               orders := e.orders + 1 })
          [] (orders.filter (fun o => o.salesPerson.isSome)) :=
  get_salesperson_data_eq_aux orders []

/- ------------------------------------------------------------------
Derived facts about each grouping function.
------------------------------------------------------------------- -/

theorem get_customer_revenue_nodup (orders : List Order) :
    ((get_customer_revenue orders).map Prod.fst).Nodup := by
  rw [get_customer_revenue_eq]
  exact nodup_groupFoldFrom _ _ _ orders [] (by simp)

theorem get_customer_revenue_val (orders : List Order) (c : String) :
    valF CustEntry.revenue (get_customer_revenue orders) c
      = ((orders.filter (fun o => o.customerCode == c)).map Order.subTotalD).sum := by
  rw [get_customer_revenue_eq]
  rw [valF_groupFoldFrom Order.customerCode _ _ CustEntry.revenue Order.subTotalD
    (fun r v => rfl) (fun r => rfl) orders [] c]
  simp [valF, lookupG]

theorem get_customer_revenue_sum (orders : List Order) :
    ((get_customer_revenue orders).map (fun kv => kv.2.revenue)).sum
      = calculate_total_sales orders := by
  rw [get_customer_revenue_eq]
  rw [sum_groupFoldFrom Order.customerCode _ _ CustEntry.revenue Order.subTotalD
    (fun r v => rfl) (fun r => rfl) orders []]
  simp [calculate_total_sales]

theorem get_customer_revenue_mem (orders : List Order) (c : String) :
    c ∈ (get_customer_revenue orders).map Prod.fst ↔ ∃ o ∈ orders, o.customerCode = c := by
  rw [get_customer_revenue_eq]
  rw [mem_keys_groupFoldFrom _ _ _ orders [] c]
  simp

theorem get_product_revenue_nodup (orders : List Order) :
    ((get_product_revenue orders).map Prod.fst).Nodup := by
  rw [get_product_revenue_eq]
  exact nodup_groupFoldFrom _ _ _ (allLines orders) [] (by simp)

theorem get_product_revenue_val (orders : List Order) (c : String) :
    valF CustEntry.revenue (get_product_revenue orders) c
      = (((allLines orders).filter (fun l => l.productCode == c)).map OrderLine.lineTotalD).sum := by
  rw [get_product_revenue_eq]
  rw [valF_groupFoldFrom OrderLine.productCode _ _ CustEntry.revenue OrderLine.lineTotalD
    (fun r v => rfl) (fun r => rfl) (allLines orders) [] c]
  simp [valF, lookupG]

theorem get_product_revenue_sum (orders : List Order) :
    ((get_product_revenue orders).map (fun kv => kv.2.revenue)).sum
      = ((allLines orders).map OrderLine.lineTotalD).sum := by
  rw [get_product_revenue_eq]
  rw [sum_groupFoldFrom OrderLine.productCode _ _ CustEntry.revenue OrderLine.lineTotalD
    (fun r v => rfl) (fun r => rfl) (allLines orders) []]
  simp

theorem get_product_revenue_mem (orders : List Order) (c : String) :
    c ∈ (get_product_revenue orders).map Prod.fst
      ↔ ∃ l ∈ allLines orders, l.productCode = c := by
  rw [get_product_revenue_eq]
  rw [mem_keys_groupFoldFrom _ _ _ (allLines orders) [] c]
  simp

theorem get_product_margin_nodup (orders : List Order) (pc : List (String × Money)) :
    ((get_product_margin orders pc).map Prod.fst).Nodup := by
  rw [get_product_margin_eq]
  exact nodup_groupFoldFrom _ _ _ (allLines orders) [] (by simp)

theorem get_product_margin_val (orders : List Order) (pc : List (String × Money)) (c : String) :
    valF MarginEntry.margin (get_product_margin orders pc) c
      = (((allLines orders).filter (fun l => l.productCode == c)).map (lineMargin pc)).sum := by
  rw [get_product_margin_eq]
  rw [valF_groupFoldFrom OrderLine.productCode _ _ MarginEntry.margin (lineMargin pc)
    (fun r v => rfl) (fun r => rfl) (allLines orders) [] c]
  simp [valF, lookupG]

theorem get_salesperson_data_nodup (orders : List Order) :
    ((get_salesperson_data orders).map Prod.fst).Nodup := by
  rw [get_salesperson_data_eq]
  exact nodup_groupFoldFrom _ _ _ _ [] (by simp)

theorem get_salesperson_data_sum (orders : List Order) :
    ((get_salesperson_data orders).map (fun kv => kv.2.revenue)).sum
      = calculate_total_sales (orders.filter (fun o => o.salesPerson.isSome)) := by
  rw [get_salesperson_data_eq]
  rw [sum_groupFoldFrom spKey _ _ SpEntry.revenue Order.subTotalD
    (fun r v => rfl) (fun r => rfl) _ []]
  simp [calculate_total_sales]

theorem get_salesperson_data_mem (orders : List Order) (c : String) :
    c ∈ (get_salesperson_data orders).map Prod.fst
      ↔ ∃ o ∈ orders.filter (fun o => o.salesPerson.isSome), spKey o = c := by
  rw [get_salesperson_data_eq]
  rw [mem_keys_groupFoldFrom _ _ _ _ [] c]
  simp

/- ------------------------------------------------------------------
Lemmas about the descending sorts.
------------------------------------------------------------------- -/

theorem mem_insertDescBy (f : α → Money) (x z : α) :
    ∀ l : List α, z ∈ insertDescBy f x l ↔ z = x ∨ z ∈ l
  | [] => by simp [insertDescBy]
  | y :: ys => by
      by_cases h : f y < f x
      · simp [insertDescBy, h]
      · simp only [insertDescBy, if_neg h, List.mem_cons, mem_insertDescBy f x z ys]
        tauto

theorem pairwise_insertDescBy (f : α → Money) (x : α) :
    ∀ l : List α, l.Pairwise (fun a b => f b ≤ f a)
      → (insertDescBy f x l).Pairwise (fun a b => f b ≤ f a)
  | [], _ => by simp [insertDescBy]
  | y :: ys, h => by
      rcases List.pairwise_cons.mp h with ⟨hy, hys⟩
      by_cases hlt : f y < f x
      · rw [insertDescBy, if_pos hlt]
        refine List.pairwise_cons.mpr ⟨?_, h⟩
        intro z hz
        rcases List.mem_cons.mp hz with rfl | hz2
        · exact le_of_lt hlt
        · exact le_trans (hy z hz2) (le_of_lt hlt)
      · rw [insertDescBy, if_neg hlt]
        refine List.pairwise_cons.mpr ⟨?_, pairwise_insertDescBy f x ys hys⟩
        intro z hz
        rcases (mem_insertDescBy f x z ys).mp hz with rfl | hz2
        · exact le_of_not_lt hlt
        · exact hy z hz2

theorem pairwise_sortDescBy (f : α → Money) :
    ∀ l : List α, (sortDescBy f l).Pairwise (fun a b => f b ≤ f a)
  | [] => by simp [sortDescBy]
  | x :: xs => pairwise_insertDescBy f x (sortDescBy f xs) (pairwise_sortDescBy f xs)

theorem pairwise_nlargestBy (f : α → Money) (n : ℕ) (l : List α) :
    (nlargestBy f n l).Pairwise (fun a b => f b ≤ f a) :=
  (pairwise_sortDescBy f l).sublist (List.take_sublist n (sortDescBy f l))

theorem sum_insertDescBy (f : α → Money) (g : α → Money) (x : α) :
    ∀ l : List α, ((insertDescBy f x l).map g).sum = g x + (l.map g).sum
  | [] => by simp [insertDescBy]
  | y :: ys => by
      by_cases h : f y < f x
      · simp [insertDescBy, h]
      · simp [insertDescBy, h, sum_insertDescBy f g x ys]; ring

theorem sum_sortDescBy (f : α → Money) (g : α → Money) :
    ∀ l : List α, ((sortDescBy f l).map g).sum = (l.map g).sum
  | [] => rfl
  | x :: xs => by
      simp [sortDescBy, sum_insertDescBy f g x (sortDescBy f xs), sum_sortDescBy f g xs]

/- ------------------------------------------------------------------
Lemmas about the pagination loop.
------------------------------------------------------------------- -/

theorem range'_snoc : ∀ (n s : ℕ), List.range' s (n + 1) = List.range' s n ++ [s + n]
  | 0, s => by simp [List.range'_succ]
  | n + 1, s => by
      rw [List.range'_succ, range'_snoc n (s + 1), List.range'_succ]
      simp [Nat.add_assoc, Nat.add_comm 1 n]

theorem nodup_range'_one : ∀ (n s : ℕ), (List.range' s n).Nodup
  | 0, _ => by simp
  | n + 1, s => by
      rw [List.range'_succ]
      refine List.nodup_cons.mpr ⟨?_, nodup_range'_one n (s + 1)⟩
      intro h
      have h2 := List.mem_range'_1.mp h
      omega

theorem catItems_append (resp : ℕ → Except ε (PageResponse α)) :
    ∀ l1 l2 : List ℕ, catItems resp (l1 ++ l2) = catItems resp l1 ++ catItems resp l2
  | [], l2 => by simp [catItems]
  | p :: ps, l2 => by
      simp [catItems, catItems_append resp ps l2]

theorem get_all_pages_go_walk (resp : ℕ → Except ε (PageResponse α)) :
    ∀ (n p fuel : ℕ) (acc : List α) (trace : List ℕ),
      (∀ i, i < n → ∃ r, resp (p + i) = Except.ok r ∧ r.items.isEmpty = false
          ∧ p + i < r.numberOfPages.getD 1) →
      get_all_pages_go resp (n + fuel) p acc trace
        = get_all_pages_go resp fuel (p + n) (acc ++ catItems resp (List.range' p n))
            (trace ++ List.range' p n)
  | 0, p, fuel, acc, trace, _ => by simp [catItems]
  | n + 1, p, fuel, acc, trace, h => by
      obtain ⟨r, hr, hne, hlt⟩ := by
        have h0 := h 0 (Nat.succ_pos n)
        simpa using h0
      have hstep : (n + 1) + fuel = (n + fuel) + 1 := by omega
      rw [hstep]
      rw [show get_all_pages_go resp ((n + fuel) + 1) p acc trace
            = get_all_pages_go resp (n + fuel) (p + 1) (acc ++ r.items) (trace ++ [p]) by
        simp [get_all_pages_go, hr, hne, Nat.not_le.mpr hlt]]
      have hshift : ∀ i, i < n → ∃ r2, resp ((p + 1) + i) = Except.ok r2
          ∧ r2.items.isEmpty = false ∧ (p + 1) + i < r2.numberOfPages.getD 1 := by
        intro i hi
        have h2 := h (i + 1) (by omega)
        have he : p + (i + 1) = (p + 1) + i := by omega
        rw [he] at h2
        exact h2
      rw [get_all_pages_go_walk resp n (p + 1) fuel (acc ++ r.items) (trace ++ [p]) hshift]
      have hp : pageItems resp p = r.items := by simp [pageItems, hr]
      rw [List.range'_succ]
      simp only [catItems, hp, List.append_assoc]
      have h4 : p + 1 = 1 + p := by omega
      rw [h4]
      simp only [List.singleton_append]
      rw [show 1 + p + n = p + (n + 1) by omega]

theorem get_all_pages_items_of_stop (resp : ℕ → Except ε (PageResponse α)) (k fuel : ℕ)
    (r : PageResponse α) (hk : 1 ≤ k) (hfuel : k ≤ fuel)
    (hpre : ∀ p, 1 ≤ p → p < k → ∃ rp, resp p = Except.ok rp ∧ rp.items.isEmpty = false
        ∧ p < rp.numberOfPages.getD 1)
    (hstop : resp k = Except.ok r)
    (hdone : r.items.isEmpty = true ∨ r.numberOfPages.getD 1 ≤ k) :
    get_all_pages resp fuel
      = some ⟨List.range' 1 k, Except.ok (catItems resp (List.range' 1 k))⟩ := by
  obtain ⟨f, rfl⟩ : ∃ f, fuel = (k - 1) + (f + 1) := ⟨fuel - k, by omega⟩
  rw [get_all_pages, get_all_pages_go_walk resp (k - 1) 1 (f + 1) [] [] ?hpre2]
  case hpre2 =>
    intro i hi
    exact hpre (1 + i) (by omega) (by omega)
  have h1k : 1 + (k - 1) = k := by omega
  rw [h1k]
  simp only [List.nil_append]
  have hksnoc : List.range' 1 k = List.range' 1 (k - 1) ++ [k] := by
    have h2 := range'_snoc (k - 1) 1
    rw [show k - 1 + 1 = k by omega, h1k] at h2
    exact h2
  cases hie : r.items.isEmpty with
  | true =>
      have hnil : r.items = [] := List.isEmpty_iff.mp hie
      rw [show get_all_pages_go resp (f + 1) k (catItems resp (List.range' 1 (k - 1)))
            (List.range' 1 (k - 1))
          = some ⟨List.range' 1 (k - 1) ++ [k],
              Except.ok (catItems resp (List.range' 1 (k - 1)))⟩ by
        simp [get_all_pages_go, hstop, hie]]
      rw [hksnoc, catItems_append]
      simp [catItems, pageItems, hstop, hnil]
  | false =>
      have hnop : r.numberOfPages.getD 1 ≤ k := by
        rcases hdone with hd | hd
        · rw [hd] at hie; cases hie
        · exact hd
      rw [show get_all_pages_go resp (f + 1) k (catItems resp (List.range' 1 (k - 1)))
            (List.range' 1 (k - 1))
          = some ⟨List.range' 1 (k - 1) ++ [k],
              Except.ok (catItems resp (List.range' 1 (k - 1)) ++ r.items)⟩ by
        simp [get_all_pages_go, hstop, hie, hnop]]
      rw [hksnoc, catItems_append]
      simp [catItems, pageItems, hstop]

theorem get_all_pages_error_of_stop (resp : ℕ → Except ε (PageResponse α)) (k fuel : ℕ)
    (e : ε) (hk : 1 ≤ k) (hfuel : k ≤ fuel)
    (hpre : ∀ p, 1 ≤ p → p < k → ∃ rp, resp p = Except.ok rp ∧ rp.items.isEmpty = false
        ∧ p < rp.numberOfPages.getD 1)
    (hstop : resp k = Except.error e) :
    get_all_pages resp fuel = some ⟨List.range' 1 k, Except.error e⟩ := by
  obtain ⟨f, rfl⟩ : ∃ f, fuel = (k - 1) + (f + 1) := ⟨fuel - k, by omega⟩
  rw [get_all_pages, get_all_pages_go_walk resp (k - 1) 1 (f + 1) [] [] ?hpre2]
  case hpre2 =>
    intro i hi
    exact hpre (1 + i) (by omega) (by omega)
  have h1k : 1 + (k - 1) = k := by omega
  rw [h1k]
  simp only [List.nil_append]
  have hksnoc : List.range' 1 k = List.range' 1 (k - 1) ++ [k] := by
    have h2 := range'_snoc (k - 1) 1
    rw [show k - 1 + 1 = k by omega, h1k] at h2
    exact h2
  rw [hksnoc]
  simp [get_all_pages_go, hstop]

/- ------------------------------------------------------------------
Claim theorems.
------------------------------------------------------------------- -/

/-- Claim C3: for every page oracle, `get_all_pages` requests page 1 and
then successive incrementing page numbers (the requested pages are exactly
1, 2, ..., k), stopping at the first page k whose item list is empty or
whose page number has reached the reported total page count — whichever
comes first — where a missing pagination object or page count is taken as
a total page count of 1 (`numberOfPages.getD 1`); the result is the
concatenation of the item lists of pages 1 through k in page order (the
stopping page contributes nothing when its item list is empty), and the
loop terminates with `some` for any fuel of at least k. -/
theorem c3_pagination (resp : ℕ → Except ε (PageResponse α)) (k fuel : ℕ)
    (r : PageResponse α) (hk : 1 ≤ k) (hfuel : k ≤ fuel)
    (hpre : ∀ p, 1 ≤ p → p < k → ∃ rp, resp p = Except.ok rp ∧ rp.items.isEmpty = false
        ∧ p < rp.numberOfPages.getD 1)
    (hstop : resp k = Except.ok r)
    (hdone : r.items.isEmpty = true ∨ r.numberOfPages.getD 1 ≤ k) :
    get_all_pages resp fuel
      = some ⟨List.range' 1 k, Except.ok (catItems resp (List.range' 1 k))⟩ :=
  get_all_pages_items_of_stop resp k fuel r hk hfuel hpre hstop hdone

/-- Witness for C3 at a concrete two-page oracle: pages 1 and 2 are
requested and their items concatenated in order. -/
theorem c3_pagination_witness :
    get_all_pages
        (fun p => if p = 1 then Except.ok ⟨[10], some 2⟩
                  else (Except.ok ⟨[20], some 2⟩ : Except Unit (PageResponse ℕ))) 5
      = some ⟨[1, 2], Except.ok [10, 20]⟩ := by
  have h := c3_pagination
    (fun p => if p = 1 then Except.ok ⟨[10], some 2⟩
              else (Except.ok ⟨[20], some 2⟩ : Except Unit (PageResponse ℕ)))
    2 5 ⟨[20], some 2⟩ (by norm_num) (by norm_num)
    (by
      intro p h1 h2
      have hp : p = 1 := by omega
      subst hp
      exact ⟨⟨[10], some 2⟩, rfl, rfl, by norm_num⟩)
    rfl (Or.inr (by norm_num))
  simpa [List.range'_succ, catItems, pageItems] using h

/-- Claim C8: an error on any page request (a non-success HTTP status or
any other exception) mid-pagination makes the whole fetch signal that
error: `get_all_pages` returns the error outcome with no items (the pages
requested so far are discarded), each page was requested exactly once (no
retry), the cached-fetch wrapper passes the error through and writes
nothing to the cache for its key, and the five-fetch data-load of `main`
aborts with the first error, yielding data only when every fetch
succeeded. -/
theorem c8_fetch_error_aborts (resp : ℕ → Except ε (PageResponse α)) (k fuel : ℕ) (e : ε)
    (now : ℚ) (sd ed : String)
    (a b : List Order) (c : List CatalogProduct) (d2 f2 : List CreditNote)
    (po : Except ε (List Order)) (pr : Except ε (List CatalogProduct))
    (cn pn : Except ε (List CreditNote))
    (hk : 1 ≤ k) (hfuel : k ≤ fuel)
    (hpre : ∀ p, 1 ≤ p → p < k → ∃ rp, resp p = Except.ok rp ∧ rp.items.isEmpty = false
        ∧ p < rp.numberOfPages.getD 1)
    (hstop : resp k = Except.error e) :
    get_all_pages resp fuel = some ⟨List.range' 1 k, Except.error e⟩ ∧
    (List.range' 1 k).Nodup ∧
    fetch_with_cache (none : Option (List α)) (Except.error e : Except ε (List α))
      = ⟨Except.error e, none⟩ ∧
    get_sales_orders_cached (fun _ => none) now sd ed (Except.error e : Except ε (List Order))
      = ⟨Except.error e, none⟩ ∧
    load_dashboard_data (Except.error e) po pr cn pn = Except.error e ∧
    load_dashboard_data (Except.ok a) (Except.error e) pr cn pn = Except.error e ∧
    load_dashboard_data (Except.ok a) (Except.ok b) (Except.error e) cn pn = Except.error e ∧
    load_dashboard_data (Except.ok a) (Except.ok b) (Except.ok c) (Except.error e) pn
      = Except.error e ∧
    load_dashboard_data (Except.ok a) (Except.ok b) (Except.ok c) (Except.ok d2)
      (Except.error e) = Except.error e ∧
    load_dashboard_data (ε := ε) (Except.ok a) (Except.ok b) (Except.ok c) (Except.ok d2)
      (Except.ok f2) = Except.ok (a, b, c, d2, f2) :=
  ⟨get_all_pages_error_of_stop resp k fuel e hk hfuel hpre hstop,
   nodup_range'_one k 1, rfl, rfl, rfl, rfl, rfl, rfl, rfl, rfl⟩

/-- Witness for C8 at a concrete oracle failing on page 2: the fetch
signals the error with no partial items, and the cached fetch writes
nothing. -/
theorem c8_fetch_error_aborts_witness :
    get_all_pages (fun p => if p = 1 then Except.ok ⟨[(5 : ℕ)], some 3⟩
                            else Except.error ()) 2
      = some ⟨[1, 2], Except.error ()⟩ ∧
    get_sales_orders_cached (fun _ => none) 0 ("s") ("e")
      (Except.error () : Except Unit (List Order)) = ⟨Except.error (), none⟩ := by
  have h := c8_fetch_error_aborts
    (fun p => if p = 1 then Except.ok ⟨[(5 : ℕ)], some 3⟩ else Except.error ())
    2 2 () 0 ("s") ("e") [] [] [] [] [] (Except.ok []) (Except.ok []) (Except.ok [])
    (Except.ok []) (by norm_num) (by norm_num)
    (by
      intro p h1 h2
      have hp : p = 1 := by omega
      subst hp
      exact ⟨⟨[(5 : ℕ)], some 3⟩, rfl, rfl, by norm_num⟩)
    rfl
  exact ⟨by simpa [List.range'_succ] using h.1, h.2.2.2.1⟩

/-- Claim C9: `load_from_cache` (at its default window of 2 hours) returns
stored data exactly when a cache file exists, its age since write is under
7200 seconds, and its content is readable; an absent, expired or
unreadable entry is a miss (`none`) — the embedding is total, so no
exception escapes; on a miss the fetch wrappers fall through to the live
fetch and overwrite the cache entry with the fetched data, while a hit
returns the cached data with no write; and `save_to_cache` is total also
on a failed write, which leaves the store unchanged. -/
theorem c9_cache_freshness (f : CacheFile α) (now : ℚ) (d dd : α)
    (store : String → Option (CacheFile α)) (key : String) (fetch : Except ε α)
    (sd ed : String) (orders : List Order) :
    load_from_cache (none : Option (CacheFile α)) now 2 = none ∧
    (load_from_cache (some f) now 2 = some d ↔ now - f.mtime < 7200 ∧ f.content = some d) ∧
    (7200 ≤ now - f.mtime → load_from_cache (some f) now 2 = none) ∧
    (f.content = none → load_from_cache (some f) now 2 = none) ∧
    fetch_with_cache (load_from_cache (none : Option (CacheFile α)) now 2)
      (Except.ok dd : Except ε α) = ⟨Except.ok dd, some dd⟩ ∧
    fetch_with_cache (some d) fetch = ⟨Except.ok d, none⟩ ∧
    get_sales_orders_cached (fun _ => none) now sd ed
      (Except.ok orders : Except ε (List Order)) = ⟨Except.ok orders, some orders⟩ ∧
    save_to_cache store key dd now true key = some ⟨now, some dd⟩ ∧
    save_to_cache store key dd now false = store := by
  refine ⟨rfl, ?_, ?_, ?_, rfl, rfl, rfl, by simp [save_to_cache], rfl⟩
  · constructor
    · intro h
      by_cases hfresh : now - f.mtime < 2 * 3600
      · refine ⟨by linarith, ?_⟩
        simpa [load_from_cache, hfresh] using h
      · simp [load_from_cache, hfresh] at h
    · rintro ⟨h1, h2⟩
      have hfresh : now - f.mtime < 2 * 3600 := by linarith
      simp [load_from_cache, hfresh, h2]
  · intro h
    have hfresh : ¬ (now - f.mtime < 2 * 3600) := by linarith
    simp [load_from_cache, hfresh]
  · intro h
    by_cases hfresh : now - f.mtime < 2 * 3600 <;> simp [load_from_cache, hfresh, h]

/-- Witness for C9 at concrete inputs: a two-hour-old entry written at
time 0 read at time 10000 is expired and misses; a miss followed by a
successful fetch returns the data and overwrites the entry. -/
theorem c9_cache_freshness_witness :
    load_from_cache (some (⟨0, some 42⟩ : CacheFile ℕ)) 10000 2 = none ∧
    fetch_with_cache (load_from_cache (none : Option (CacheFile ℕ)) 10000 2)
      (Except.ok 42 : Except Unit ℕ) = ⟨Except.ok 42, some 42⟩ := by
  have h := c9_cache_freshness (⟨0, some 42⟩ : CacheFile ℕ) 10000 42 42 (fun _ => none)
    ("k") (Except.ok 42 : Except Unit ℕ) ("s") ("e") []
  exact ⟨h.2.2.1 (by norm_num), h.2.2.2.2.1⟩

/-- Claim C7: for every request built by the client, the
api-auth-signature header is the base64 encoding of the HMAC-SHA256 of
the URL-encoded query string, keyed by the UTF-8 bytes of the secret API
key; the signature does not depend on the request path; with no (or
empty) parameters the empty string is signed; the api-auth-id header
carries the identifier; and the URL is the base URL plus path, with the
query string appended after a question mark when non-empty. -/
theorem c7_request_signing (api_id api_key endpoint ep2 : String)
    (params : Option (List (String × String))) (ps : List (String × String)) :
    (make_request api_id api_key endpoint params).apiAuthSignature
      = base64Encode (hmacSha256 (strBytes api_key)
          (strBytes (requestQueryString params))) ∧
    (make_request api_id api_key endpoint params).apiAuthSignature
      = (make_request api_id api_key ep2 params).apiAuthSignature ∧
    (make_request api_id api_key endpoint none).apiAuthSignature
      = generate_signature api_key ("") ∧
    (make_request api_id api_key endpoint params).apiAuthId = api_id ∧
    (make_request api_id api_key endpoint params).accept = ("application/json") ∧
    (make_request api_id api_key endpoint params).url
      = (if requestQueryString params = ("")
         then base_url ++ endpoint
         else base_url ++ endpoint ++ ("?") ++ requestQueryString params) ∧
    (ps ≠ [] → requestQueryString (some ps) = urlencode ps) := by
  refine ⟨rfl, rfl, rfl, rfl, rfl, rfl, ?_⟩
  intro h
  simp [requestQueryString, h]

/-- Witness for C7 at concrete inputs: with non-empty parameters the
URL-encoded parameter string is what gets signed. -/
theorem c7_request_signing_witness :
    requestQueryString (some [("page", "1")]) = urlencode [("page", "1")] :=
  (c7_request_signing ("id") ("key") ("/SalesOrders") ("/Products") none
    [("page", "1")]).2.2.2.2.2.2 (by simp)

/-- Claim C4: in monthly mode, for every valid reference date, the
previous period starts on the first day of the month preceding the
current month (wrapping January to December of the prior year) and ends
on the same day-of-month clamped to that preceding months last valid
day — `min today.day (daysInMonth py pm)` — with no error raised (the
ValueError branch of the source is the clamping fallback). -/
theorem c4_monthly_previous (today : Date) (h : today.Valid) (hy : 1 ≤ today.year) :
    monthlyPrevious today
      = (⟨(specPrecedingMonth today).1, (specPrecedingMonth today).2, 1⟩,
         ⟨(specPrecedingMonth today).1, (specPrecedingMonth today).2,
          min today.day (daysInMonth (specPrecedingMonth today).1
            (specPrecedingMonth today).2)⟩) := by
  obtain ⟨h1, h2, h3, h4⟩ := h
  by_cases hm : today.month = 1
  · have hspec : specPrecedingMonth today = (today.year - 1, 12) := by
      simp [specPrecedingMonth, hm]
    have hpred : predDate ⟨today.year, today.month, 1⟩ = ⟨today.year - 1, 12, 31⟩ := by
      simp [predDate, hm]
    have hdim12 : daysInMonth (today.year - 1) 12 = 31 := by norm_num [daysInMonth]
    have hday : today.day ≤ 31 := by
      have h5 := h4
      rw [hm] at h5
      simpa [daysInMonth] using h5
    have hrd : replaceDay ⟨today.year - 1, 12, 31⟩ today.day
        = some ⟨today.year - 1, 12, today.day⟩ := by
      rw [replaceDay]
      exact if_pos ⟨h3, by simpa [hdim12] using hday⟩
    simp only [monthlyPrevious, hpred, hrd, hspec, hdim12]
    simp [Nat.min_eq_left hday]
  · have hm2 : 2 ≤ today.month := by omega
    have hspec : specPrecedingMonth today = (today.year, today.month - 1) := by
      simp [specPrecedingMonth, hm]
    have hpred : predDate ⟨today.year, today.month, 1⟩
        = ⟨today.year, today.month - 1, daysInMonth today.year (today.month - 1)⟩ := by
      rw [predDate]
      rw [if_neg (show ¬ (1 : ℕ) < 1 by omega),
        if_pos (show 1 < today.month by omega)]
    by_cases hfit : today.day ≤ daysInMonth today.year (today.month - 1)
    · have hrd : replaceDay ⟨today.year, today.month - 1,
          daysInMonth today.year (today.month - 1)⟩ today.day
          = some ⟨today.year, today.month - 1, today.day⟩ := by
        rw [replaceDay]
        exact if_pos ⟨h3, hfit⟩
      simp only [monthlyPrevious, hpred, hrd, hspec]
      simp [Nat.min_eq_left hfit]
    · have hrd : replaceDay ⟨today.year, today.month - 1,
          daysInMonth today.year (today.month - 1)⟩ today.day = none := by
        rw [replaceDay]
        exact if_neg (show ¬ (1 ≤ today.day
          ∧ today.day ≤ daysInMonth today.year (today.month - 1)) by omega)
      simp only [monthlyPrevious, hpred, hrd, hspec]
      simp [Nat.min_eq_right (by omega : daysInMonth today.year (today.month - 1) ≤ today.day)]

/-- Witness for C4 at the specs example: March 31 of a non-leap year
yields a previous period of February 1 through February 28. -/
theorem c4_monthly_previous_witness :
    monthlyPrevious ⟨2025, 3, 31⟩ = (⟨2025, 2, 1⟩, ⟨2025, 2, 28⟩) := by
  rw [c4_monthly_previous ⟨2025, 3, 31⟩ (by decide) (by norm_num)]
  decide

/-- Claim C5: in quarterly mode, for every valid reference date, the
previous period starts on the first day of the quarter preceding the
current quarter (wrapping to Q4 of the prior calendar year when the
current quarter is Q1) and ends at that start plus exactly the number of
days elapsed in the current quarter as of the reference date. -/
theorem c5_quarterly_previous (today : Date) (h : today.Valid) (hy : 1 ≤ today.year) :
    quarterlyPrevious today
      = (specPrevQuarterStart today,
         addDays (specPrevQuarterStart today) (elapsedInQuarter today)) := by
  obtain ⟨h1, h2, h3, h4⟩ := h
  have hq1 : quarterOf today.month = (today.month - 1) / 3 + 1 := rfl
  by_cases hq : (today.month - 1) / 3 = 0
  · have hspec : specPrevQuarterStart today = ⟨today.year - 1, 10, 1⟩ := by
      rw [specPrevQuarterStart, if_pos (by rw [hq1, hq])]
    have hel : elapsedInQuarter today
        = dayOfYear today - dayOfYear ⟨today.year, (today.month - 1) / 3 * 3 + 1, 1⟩ := by
      rw [elapsedInQuarter, hq1]
      have hmm : quarterFirstMonth ((today.month - 1) / 3 + 1)
          = (today.month - 1) / 3 * 3 + 1 := by
        rw [quarterFirstMonth]; omega
      rw [hmm]
    simp only [quarterlyPrevious, hq, if_pos]
    rw [hspec, hel]
    simp [hq]
  · have hspec : specPrevQuarterStart today
        = ⟨today.year, ((today.month - 1) / 3 - 1) * 3 + 1, 1⟩ := by
      rw [specPrevQuarterStart, if_neg (by rw [hq1]; omega)]
      have hmm : quarterFirstMonth (quarterOf today.month - 1)
          = ((today.month - 1) / 3 - 1) * 3 + 1 := by
        rw [quarterFirstMonth, hq1]; omega
      rw [hmm]
    have hel : elapsedInQuarter today
        = dayOfYear today - dayOfYear ⟨today.year, (today.month - 1) / 3 * 3 + 1, 1⟩ := by
      rw [elapsedInQuarter, hq1]
      have hmm : quarterFirstMonth ((today.month - 1) / 3 + 1)
          = (today.month - 1) / 3 * 3 + 1 := by
        rw [quarterFirstMonth]; omega
      rw [hmm]
    simp only [quarterlyPrevious, hq, if_neg]
    rw [hspec, hel]
    simp [hq]

/-- Witness for C5 at the specs example: January 15 is 14 days into Q1,
so the previous period is October 1 of the prior year through October 15. -/
theorem c5_quarterly_previous_witness :
    quarterlyPrevious ⟨2026, 1, 15⟩ = (⟨2025, 10, 1⟩, ⟨2025, 10, 15⟩) := by
  rw [c5_quarterly_previous ⟨2026, 1, 15⟩ (by decide) (by norm_num)]
  decide

/-- Counterexample to claim C1 as stated: the top-level total-sales
summary metric does not follow the `100 if current > 0` convention — with
current sales of 5 and previous sales of 0 the source computes 0, not
100 (`else 0` at the summary, with no current-positive branch). -/
theorem c1_summary_pct_counterexample :
    sales_change_percent [subFiveOrder] [] = 0
      ∧ calculate_total_sales [subFiveOrder] = 5
      ∧ calculate_total_sales ([] : List Order) = 0
      ∧ (0 : Money) ≠ 100 := by
  refine ⟨?_, ?_, rfl, by norm_num⟩
  · simp [sales_change_percent, calculate_total_sales]
  · simp [calculate_total_sales, subFiveOrder, Order.subTotalD]

/-- Claim C1 (amended): every per-group percentage change (customer,
product and margin comparison rows, and the salesperson comparison
lambda) follows the zero-guarded convention — `(current − previous) /
previous × 100` when previous > 0, else 100 when current > 0, else 0.
The top-level total-sales and total-credit-notes summary metrics follow
the formula when the previous total is positive but yield 0 whenever the
previous total is 0, even when the current total is positive. -/
theorem c1_change_pct_convention (c p : Money)
    (current_orders previous_orders : List Order)
    (current_notes previous_notes : List CreditNote)
    (products_list : List CatalogProduct) :
    (p > 0 → change_pct c p = (c - p) / p * 100) ∧
    (p = 0 → c > 0 → change_pct c p = 100) ∧
    (p = 0 → c = 0 → change_pct c p = 0) ∧
    (∀ row ∈ customers_comparison current_orders previous_orders,
      row.changePct = change_pct row.currentRevenue row.previousRevenue) ∧
    (∀ row ∈ products_comparison current_orders previous_orders,
      row.changePct = change_pct row.currentRevenue row.previousRevenue) ∧
    (∀ row ∈ margin_comparison current_orders previous_orders products_list,
      row.changePct = change_pct row.currentMargin row.previousMargin) ∧
    sp_change_pct c p = change_pct c p ∧
    (calculate_total_sales previous_orders = 0 →
      sales_change_percent current_orders previous_orders = 0) ∧
    (calculate_total_sales previous_orders > 0 →
      sales_change_percent current_orders previous_orders
        = (calculate_total_sales current_orders - calculate_total_sales previous_orders)
            / calculate_total_sales previous_orders * 100) ∧
    (calculate_total_credit_notes previous_notes = 0 →
      credit_change_percent current_notes previous_notes = 0) ∧
    (calculate_total_credit_notes previous_notes > 0 →
      credit_change_percent current_notes previous_notes
        = (calculate_total_credit_notes current_notes
            - calculate_total_credit_notes previous_notes)
            / calculate_total_credit_notes previous_notes * 100) := by
  refine ⟨?_, ?_, ?_, ?_, ?_, ?_, rfl, ?_, ?_, ?_, ?_⟩
  · intro hp
    simp [change_pct, hp]
  · intro hp hc
    simp [change_pct, hp, hc]
  · intro hp hc
    simp [change_pct, hp, hc]
  · intro row hrow
    simp only [customers_comparison, List.mem_map] at hrow
    obtain ⟨code, hcode, rfl⟩ := hrow
    rfl
  · intro row hrow
    simp only [products_comparison, List.mem_map] at hrow
    obtain ⟨code, hcode, rfl⟩ := hrow
    rfl
  · intro row hrow
    simp only [margin_comparison, List.mem_map] at hrow
    obtain ⟨code, hcode, rfl⟩ := hrow
    rfl
  · intro hp
    simp [sales_change_percent, hp]
  · intro hp
    simp [sales_change_percent, hp]
  · intro hp
    simp [credit_change_percent, hp]
  · intro hp
    simp [credit_change_percent, hp]

/-- Witness for C1 (amended) at concrete inputs: the specs worked
examples of the convention, and the summary metric at a zero previous
total. -/
theorem c1_change_pct_convention_witness :
    change_pct 150 100 = (150 - 100) / 100 * 100
      ∧ change_pct 5 0 = 100
      ∧ change_pct 0 0 = 0
      ∧ sales_change_percent [subFiveOrder] [] = 0 :=
  ⟨(c1_change_pct_convention 150 100 [] [] [] [] []).1 (by norm_num),
   (c1_change_pct_convention 5 0 [] [] [] [] []).2.1 rfl (by norm_num),
   (c1_change_pct_convention 0 0 [] [] [] [] []).2.2.1 rfl rfl,
   (c1_change_pct_convention 0 0 [subFiveOrder] [] [] [] []).2.2.2.2.2.2.2.1 rfl⟩

/-- Counterexample to claim C2 as stated: `get_salesperson_revenue` omits
orders whose `SalesPerson` is missing, so on a one-order list with
subtotal 100 and no salesperson the per-group revenues sum to 0 while
`calculate_total_sales` of the same list is 100 (the product grouping
also sums line totals, 0 here, not the order subtotal). -/
theorem c2_grouping_counterexample :
    ((get_salesperson_revenue [noSpOrder]).map SpRow.revenue).sum = 0
      ∧ ((get_product_revenue [noSpOrder]).map (fun kv => kv.2.revenue)).sum = 0
      ∧ calculate_total_sales [noSpOrder] = 100
      ∧ (0 : Money) ≠ 100 := by
  refine ⟨rfl, rfl, ?_, by norm_num⟩
  simp [calculate_total_sales, noSpOrder, Order.subTotalD]

/-- Claim C2 (amended): the customer grouping shared by
`get_top_customers_comparison` and `compare_customer_growth` assigns
every order to exactly one customer-code group (keys are distinct, a code
is present exactly when some order carries it, and each groups revenue
is the sum over exactly the orders with that code), and its per-group
revenues sum to `calculate_total_sales` of the input — in particular of
the exclusion-filtered input.  The product grouping partitions the order
lines by product code and its per-group revenues sum to the total of the
lines `LineTotal` fields, not to `calculate_total_sales`.  The
salesperson grouping skips orders with no salesperson: it partitions only
the remaining orders and its per-group revenues sum to
`calculate_total_sales` of those orders only. -/
theorem c2_grouping_partition (orders : List Order) (c : String) :
    ((get_customer_revenue orders).map Prod.fst).Nodup ∧
    valF CustEntry.revenue (get_customer_revenue orders) c
      = ((orders.filter (fun o => o.customerCode == c)).map Order.subTotalD).sum ∧
    ((get_customer_revenue orders).map (fun kv => kv.2.revenue)).sum
      = calculate_total_sales orders ∧
    (c ∈ (get_customer_revenue orders).map Prod.fst
      ↔ ∃ o ∈ orders, o.customerCode = c) ∧
    ((get_product_revenue orders).map Prod.fst).Nodup ∧
    valF CustEntry.revenue (get_product_revenue orders) c
      = (((allLines orders).filter (fun l => l.productCode == c)).map
          OrderLine.lineTotalD).sum ∧
    ((get_product_revenue orders).map (fun kv => kv.2.revenue)).sum
      = ((allLines orders).map OrderLine.lineTotalD).sum ∧
    (c ∈ (get_product_revenue orders).map Prod.fst
      ↔ ∃ l ∈ allLines orders, l.productCode = c) ∧
    ((get_salesperson_data orders).map Prod.fst).Nodup ∧
    ((get_salesperson_revenue orders).map SpRow.revenue).sum
      = calculate_total_sales (orders.filter (fun o => o.salesPerson.isSome)) ∧
    (c ∈ (get_salesperson_data orders).map Prod.fst
      ↔ ∃ o ∈ orders.filter (fun o => o.salesPerson.isSome), spKey o = c) ∧
    ((get_customer_revenue (filter_excluded_orders orders)).map
        (fun kv => kv.2.revenue)).sum
      = calculate_total_sales (filter_excluded_orders orders) := by
  refine ⟨get_customer_revenue_nodup orders, get_customer_revenue_val orders c,
    get_customer_revenue_sum orders, get_customer_revenue_mem orders c,
    get_product_revenue_nodup orders, get_product_revenue_val orders c,
    get_product_revenue_sum orders, get_product_revenue_mem orders c,
    get_salesperson_data_nodup orders, ?_, get_salesperson_data_mem orders c,
    get_customer_revenue_sum (filter_excluded_orders orders)⟩
  rw [get_salesperson_revenue,
    sum_sortDescBy (fun r => r.revenue) SpRow.revenue, List.map_map]
  exact get_salesperson_data_sum orders

/-- Witness for C2 (amended) at a concrete input: for a two-customer
order list the grouped revenues sum to the total sales, and the
no-salesperson order is excluded from the salesperson total. -/
theorem c2_grouping_partition_witness :
    ((get_customer_revenue [noSpOrder, subFiveOrder]).map
        (fun kv => kv.2.revenue)).sum
      = calculate_total_sales [noSpOrder, subFiveOrder]
    ∧ ((get_salesperson_revenue [noSpOrder]).map SpRow.revenue).sum
      = calculate_total_sales
          ([noSpOrder].filter (fun o => o.salesPerson.isSome)) :=
  ⟨(c2_grouping_partition [noSpOrder, subFiveOrder] ("Unknown")).2.2.1,
   (c2_grouping_partition [noSpOrder] ("Unknown")).2.2.2.2.2.2.2.2.2.1⟩

/-- Claim C6: the unit cost of every order line is resolved by the
fallback chain — explicit line unit cost, else the line products default
purchase price, else its average landed price, else the entry of the
product-code-to-cost map built from the full catalog, else zero (each
absent-or-zero stage passes to the next, matching the Python truthiness
chain); the per-line margin is line revenue minus quantity times that
unit cost; margins are aggregated by product code (each groups margin is
the sum over exactly the lines with that code, with distinct group keys);
and the returned comparison rows are in descending order of current total
margin. -/
theorem c6_margin_fallback_and_sort (line : OrderLine) (orders : List Order)
    (current_orders previous_orders : List Order)
    (products_list : List CatalogProduct) (limit : ℕ) (c : String) :
    resolve_unit_cost line (build_product_costs products_list)
      = specUnitCost (line.unitCost.getD 0) line.dppD line.alpD
          ((lookupG line.productCode (build_product_costs products_list)).getD 0) ∧
    lineMargin (build_product_costs products_list) line
      = line.lineTotalD - line.orderQuantityD
          * resolve_unit_cost line (build_product_costs products_list) ∧
    valF MarginEntry.margin
        (get_product_margin orders (build_product_costs products_list)) c
      = (((allLines orders).filter (fun l => l.productCode == c)).map
          (lineMargin (build_product_costs products_list))).sum ∧
    ((get_product_margin orders (build_product_costs products_list)).map
        Prod.fst).Nodup ∧
    (get_top_products_by_margin_comparison current_orders previous_orders
        products_list limit).Pairwise
      (fun a b => b.currentMargin ≤ a.currentMargin) := by
  refine ⟨?_, rfl, get_product_margin_val orders _ c, get_product_margin_nodup orders _,
    pairwise_nlargestBy (fun r : MarginRow => r.currentMargin) limit _⟩
  by_cases h1 : line.unitCost.getD 0 = 0 <;>
    by_cases h2 : (line.product.getD emptyProductRef).defaultPurchasePrice.getD 0 = 0 <;>
    by_cases h3 : (line.product.getD emptyProductRef).averageLandPrice.getD 0 = 0 <;>
    simp [resolve_unit_cost, specUnitCost, pyOr, OrderLine.dppD, OrderLine.alpD,
      h1, h2, h3]

/-- Claim C10: a line whose explicit unit cost is exactly 0 is costed
through the fallback chain just like a line with no unit cost at all; a
zero at any later stage likewise passes control to the next stage, so the
resolved unit cost is 0 exactly when every stage is 0 or absent. -/
theorem c10_zero_unit_cost_fallback (line : OrderLine) (pc : List (String × Money)) :
    (line.unitCost.getD 0 = 0 →
      resolve_unit_cost line pc = resolve_unit_cost { line with unitCost := none } pc) ∧
    (line.unitCost.getD 0 = 0 → line.dppD = 0 →
      resolve_unit_cost line pc
        = pyOr line.alpD ((lookupG line.productCode pc).getD 0)) ∧
    (line.unitCost.getD 0 = 0 → line.dppD = 0 → line.alpD = 0 →
      resolve_unit_cost line pc = (lookupG line.productCode pc).getD 0) ∧
    (resolve_unit_cost line pc = 0
      ↔ line.unitCost.getD 0 = 0 ∧ line.dppD = 0 ∧ line.alpD = 0
          ∧ (lookupG line.productCode pc).getD 0 = 0) := by
  refine ⟨?_, ?_, ?_, ?_⟩
  · intro h1
    simp [resolve_unit_cost, OrderLine.productCode, h1]
  · intro h1 h2
    rw [OrderLine.dppD] at h2
    simp [resolve_unit_cost, pyOr, OrderLine.alpD, h1, h2]
  · intro h1 h2 h3
    rw [OrderLine.dppD] at h2
    rw [OrderLine.alpD] at h3
    simp [resolve_unit_cost, pyOr, h1, h2, h3]
  · by_cases h1 : line.unitCost.getD 0 = 0 <;>
      by_cases h2 : (line.product.getD emptyProductRef).defaultPurchasePrice.getD 0 = 0 <;>
      by_cases h3 : (line.product.getD emptyProductRef).averageLandPrice.getD 0 = 0 <;>
      simp [resolve_unit_cost, pyOr, OrderLine.dppD, OrderLine.alpD, h1, h2, h3]

/-- Witness for C10 at a concrete line with explicit unit cost 0, zero
default purchase price and average landed price 7: the chain falls
through to 7. -/
theorem c10_zero_unit_cost_fallback_witness :
    resolve_unit_cost zeroCostLine []
        = resolve_unit_cost { zeroCostLine with unitCost := none } []
      ∧ resolve_unit_cost zeroCostLine []
        = pyOr zeroCostLine.alpD ((lookupG zeroCostLine.productCode []).getD 0)
      ∧ resolve_unit_cost zeroCostLine [] = 7 :=
  ⟨(c10_zero_unit_cost_fallback zeroCostLine []).1 rfl,
   (c10_zero_unit_cost_fallback zeroCostLine []).2.1 rfl rfl,
   by norm_num [resolve_unit_cost, pyOr, zeroCostLine, lookupG]⟩
